import Mathlib

/-!
Shallow embedding of the TrueNote pipeline core:
`src/contracts/manifest.py`, `src/contracts/errors.py`,
`src/adapters/openai_transcription.py` and the failure-propagation logic of
`src/pipeline/prediction_pipeline.py`.

Python floats are modelled as rationals (`ℚ`), dynamic Python values as the
inductive `PyVal`, and `raise` as `Except`.  Mapping-or-object provider
responses are modelled as `PyVal.dict`: the `_field` helper's
dict / attribute / `model_dump` dispatch all reduce to keyed lookup.
-/

set_option maxRecDepth 16384

namespace TrueNote

/-- Model of a dynamic Python value as it appears in manifests and provider
responses: `None`, booleans, ints, floats (as `ℚ`), strings, lists and
string-keyed dicts. -/
inductive PyVal where
  | none : PyVal
  | bool (b : Bool) : PyVal
  | int (n : Int) : PyVal
  | float (q : ℚ) : PyVal
  | str (s : String) : PyVal
  | list (xs : List PyVal) : PyVal
  | dict (kvs : List (String × PyVal)) : PyVal

mutual
/-- Python `repr`-style rendering, used by `str()` on non-string values.
Float rendering uses the rational's `toString` (a modelling choice; none of
the verified code paths depend on the exact rendering of non-string values). -/
def pyRepr : PyVal → String
  | .none => "None"
  | .bool b => if b then "True" else "False"
  | .int n => toString n
  | .float q => toString q
  | .str s => "\x27" ++ s ++ "\x27"
  | .list xs => "[" ++ pyReprList xs ++ "]"
  | .dict kvs => "\x7b" ++ pyReprDict kvs ++ "\x7d"

def pyReprList : List PyVal → String
  | [] => ""
  | [x] => pyRepr x
  | x :: y :: xs => pyRepr x ++ ", " ++ pyReprList (y :: xs)

def pyReprDict : List (String × PyVal) → String
  | [] => ""
  | [(k, v)] => "\x27" ++ k ++ "\x27: " ++ pyRepr v
  | (k, v) :: y :: xs => "\x27" ++ k ++ "\x27: " ++ pyRepr v ++ ", " ++ pyReprDict (y :: xs)
end

/-- Python `str()`. -/
def pyStr : PyVal → String
  | .str s => s
  | v => pyRepr v

/-- ASCII whitespace, as stripped by Python `str.strip()`. -/
def isPyWhitespace (c : Char) : Bool :=
  c = ' ' ∨ c = '\t' ∨ c = '\n' ∨ c = '\r' ∨ c = '\x0b' ∨ c = '\x0c'

/-- Python `str.strip()` with no argument: drop leading and trailing
whitespace. -/
def pyStrip (s : String) : String :=
  String.mk (((s.toList.dropWhile isPyWhitespace).reverse.dropWhile isPyWhitespace).reverse)

/-- Value and digit list of a run of decimal digits. -/
def digitsVal (cs : List Char) : Nat :=
  cs.foldl (fun a c => a * 10 + (c.toNat - 48)) 0

/-- Model of Python `float(s)` on a string: optional surrounding whitespace,
optional sign, decimal digits with optional fraction and exponent.  Exotic
accepted forms (`inf`, `nan`, underscore grouping) are outside the model,
which covers finite decimal literals. -/
def pyParseFloat (s : String) : Option ℚ :=
  let cs := (pyStrip s).toList
  let (sgn, cs) : ℚ × List Char :=
    match cs with
    | '+' :: rest => (1, rest)
    | '-' :: rest => (-1, rest)
    | _ => (1, cs)
  let ip := cs.takeWhile Char.isDigit
  let cs := cs.dropWhile Char.isDigit
  let (fp, cs) : List Char × List Char :=
    match cs with
    | '.' :: rest => (rest.takeWhile Char.isDigit, rest.dropWhile Char.isDigit)
    | _ => ([], cs)
  if ip.isEmpty ∧ fp.isEmpty then Option.none
  else
    let mantissa : ℚ := (digitsVal ip : ℚ) + (digitsVal fp : ℚ) / (10 : ℚ) ^ fp.length
    match cs with
    | [] => some (sgn * mantissa)
    | e :: rest =>
      if e = 'e' ∨ e = 'E' then
        let (esgn, rest) : Int × List Char :=
          match rest with
          | '+' :: r => (1, r)
          | '-' :: r => (-1, r)
          | _ => (1, rest)
        let ed := rest.takeWhile Char.isDigit
        let rest := rest.dropWhile Char.isDigit
        if ed.isEmpty ∨ ¬ rest.isEmpty then Option.none
        else some (sgn * mantissa * (10 : ℚ) ^ (esgn * (digitsVal ed : Int)))
      else Option.none

/-- The exception classes of `contracts/errors.py` (plus `generic` for an
unclassified `Exception`, `valueError` for builtin `ValueError` and
`overflowError` for builtin `OverflowError`). -/
inductive ExcKind where
  | pipelineError
  | contractError
  | componentError
  | inputValidation
  | ffmpegError
  | chunkingError
  | transcriptionError
  | minutesGenerationError
  | externalToolError
  | providerError
  | providerResponseError
  | providerRetryExhaustedError
  | valueError
  | overflowError
  | generic
deriving DecidableEq, Repr

/-- A Python exception value: class, message, and `__cause__` chain. -/
inductive PyExc where
  | mk (kind : ExcKind) (msg : String) (cause : Option PyExc)

def PyExc.kind : PyExc → ExcKind
  | .mk k _ _ => k

def PyExc.msg : PyExc → String
  | .mk _ m _ => m

def PyExc.cause : PyExc → Option PyExc
  | .mk _ _ c => c

/-- CPython raises `OverflowError` on `float(n)` for an int exactly when
the value rounded to 53-bit precision reaches `2^1024`, i.e. when
`|n| ≥ 2^1024 − 2^970` (the midpoint above the largest finite double
`2^1024 − 2^971`, which ties-to-even rounds up). -/
def floatOverflows (n : Int) : Bool :=
  ((2 : Nat) ^ 1024 - 2 ^ 970) ≤ n.natAbs

/-- `_float_or_none` from `openai_transcription.py`.  The
`except (TypeError, ValueError)` clause catches only those two errors:
`None` and booleans map to `None`, floats to their value, strings through
the `float()` parse (`None` when it raises `ValueError`; a string never
raises `OverflowError` — out-of-range literals produce `inf`, outside the
rational model), lists and dicts (the `TypeError` path) to `None` — but
`float(int)` beyond the double range raises an uncaught `OverflowError`. -/
def float_or_none : PyVal → Except PyExc (Option ℚ)
  | .none => .ok Option.none
  | .bool _ => .ok Option.none
  | .int n =>
    if floatOverflows n then
      .error (PyExc.mk .overflowError "int too large to convert to float" Option.none)
    else .ok (some (n : ℚ))
  | .float q => .ok (some q)
  | .str s => .ok (pyParseFloat s)
  | .list _ => .ok Option.none
  | .dict _ => .ok Option.none

/-- `_coerce_text` from `openai_transcription.py`: `""` for `None`, otherwise
`str(value).strip()`. -/
def coerce_text (v : PyVal) : String :=
  match v with
  | .none => ""
  | v => pyStrip (pyStr v)

/-- `_field` from `openai_transcription.py`, with object-style responses
represented as dicts: `None` propagates the default, dict lookup returns the
stored value, any other value has no fields. -/
def pyField (v : PyVal) (name : String) : PyVal :=
  match v with
  | .dict kvs => ((kvs.find? (fun kv => kv.1 == name)).map Prod.snd).getD .none
  | _ => .none

/-- Python truthiness of an optional string (`None` and `""` are falsy). -/
def optStrTruthy : Option String → Bool
  | Option.none => false
  | some s => s ≠ ""

/-- Python `a or b` on two optional strings. -/
def pyOrStr (a b : Option String) : Option String :=
  if optStrTruthy a then a else b

/-- Encode an optional string field value as a dynamic value. -/
def optStrVal : Option String → PyVal
  | Option.none => .none
  | some s => .str s

/-- Encode an optional int field value as a dynamic value. -/
def optIntVal : Option Int → PyVal
  | Option.none => .none
  | some n => .int n

/-- Encode an optional float field value as a dynamic value. -/
def optFloatVal : Option ℚ → PyVal
  | Option.none => .none
  | some q => .float q

/-- The emptiness test `value in (None, "", [], {})` used by the manifest
code on artifact-ref values. -/
def isEmptyVal : PyVal → Bool
  | .none => true
  | .str s => s = ""
  | .list xs => xs.isEmpty
  | .dict kvs => kvs.isEmpty
  | _ => false

/-- Python `==` between a dynamic value and a string (no non-string value
compares equal to a `str`). -/
def pyEqStr (v : PyVal) (s : String) : Bool :=
  match v with
  | .str t => t == s
  | _ => false

/-- Python `round()` (half to even) followed by `int()`, as an integer. -/
def pyRound (q : ℚ) : Int :=
  let f := ⌊q⌋
  let r := q - f
  if r < 1 / 2 then f
  else if r > 1 / 2 then f + 1
  else if f % 2 = 0 then f else f + 1

/-- `StepRecord` from `manifest.py`.  `float` timestamps are rationals;
`meta` is an insertion-ordered dict; `status` holds one of the four literal
strings. -/
structure StepRecord where
  name : String
  status : String := "pending"
  started_at_s : Option ℚ := Option.none
  ended_at_s : Option ℚ := Option.none
  duration_ms : Option Int := Option.none
  attempts : Int := 0
  meta : List (String × PyVal) := []
  warnings : List String := []
  error : Option PyVal := Option.none
  error_type : Option String := Option.none

/-- `StepRecord.compute_duration_ms`: `max(0, int(round((end - start) * 1000)))`
when both timestamps are present, else `None`. -/
def StepRecord.compute_duration_ms (r : StepRecord) : Option Int :=
  match r.started_at_s, r.ended_at_s with
  | some a, some b => some (max 0 (pyRound ((b - a) * 1000)))
  | _, _ => Option.none

/-- `StepRecord.start`: stamps the start time (the clock value is passed
explicitly, standing for `now_unix_s()` or the `at_s` argument), resets
`status` to `"pending"` and increments `attempts`. -/
def StepRecord.start (r : StepRecord) (at_s : ℚ) : StepRecord :=
  { r with started_at_s := some at_s, status := "pending", attempts := r.attempts + 1 }

/-- Python `dict.update`: keys already present are overwritten in place,
new keys are appended in order. -/
def dictUpdate (old new : List (String × PyVal)) : List (String × PyVal) :=
  new.foldl
    (fun acc kv =>
      if acc.any (fun p => p.1 == kv.1) then
        acc.map (fun p => if p.1 == kv.1 then (p.1, kv.2) else p)
      else acc ++ [kv])
    old

/-- `StepRecord.finish`: stamps the end time, sets the given status, error
payload and error type, merges metadata when non-empty, and recomputes the
duration. -/
def StepRecord.finish (r : StepRecord) (status : String) (at_s : ℚ)
    (error : Option PyVal) (error_type : Option String)
    (meta : List (String × PyVal)) : StepRecord :=
  let r1 := { r with
    ended_at_s := some at_s,
    status := status,
    error := error,
    error_type := error_type,
    meta := if meta.isEmpty then r.meta else dictUpdate r.meta meta }
  { r1 with duration_ms := r1.compute_duration_ms }

/-- `ArtifactRefs` from `manifest.py`: the flat bag of per-run artifact
references, every field statically known. -/
structure ArtifactRefs where
  input_path : Option String := Option.none
  input_sha256 : Option String := Option.none
  normalized_audio_path : Option String := Option.none
  normalized_audio_sha256 : Option String := Option.none
  chunks_dir : Option String := Option.none
  chunk_paths : List String := []
  chunk_seconds : Option Int := Option.none
  transcript_path : Option String := Option.none
  transcript_sha256 : Option String := Option.none
  transcript_text : Option String := Option.none
  transcript_provider : Option String := Option.none
  transcript_model : Option String := Option.none
  transcript_language : Option String := Option.none
  transcript_chunk_count : Option Int := Option.none
  transcript_duration_s : Option ℚ := Option.none
  transcript_segments_path : Option String := Option.none
  transcript_segments_count : Option Int := Option.none
  minutes_md_path : Option String := Option.none
  minutes_sha256 : Option String := Option.none
  minutes_docx_path : Option String := Option.none
  minutes_docx_sha256 : Option String := Option.none
  minutes_markdown : Option String := Option.none
  minutes_model : Option String := Option.none
  minutes_prompt_version : Option String := Option.none
  minutes_prompt_path : Option String := Option.none
  minutes_prompt_hash : Option String := Option.none

/-- The statically known `ArtifactRefs` field names, in declaration order. -/
def artifactFields : List String :=
  ["input_path", "input_sha256", "normalized_audio_path", "normalized_audio_sha256",
   "chunks_dir", "chunk_paths", "chunk_seconds",
   "transcript_path", "transcript_sha256", "transcript_text", "transcript_provider",
   "transcript_model", "transcript_language", "transcript_chunk_count",
   "transcript_duration_s", "transcript_segments_path", "transcript_segments_count",
   "minutes_md_path", "minutes_sha256", "minutes_docx_path", "minutes_docx_sha256",
   "minutes_markdown", "minutes_model", "minutes_prompt_version", "minutes_prompt_path",
   "minutes_prompt_hash"]

/-- The field table of an `ArtifactRefs` instance: every statically known
field name with its dynamic value, in declaration order. -/
def fieldTable (a : ArtifactRefs) : List (String × PyVal) :=
  [("input_path", optStrVal a.input_path),
   ("input_sha256", optStrVal a.input_sha256),
   ("normalized_audio_path", optStrVal a.normalized_audio_path),
   ("normalized_audio_sha256", optStrVal a.normalized_audio_sha256),
   ("chunks_dir", optStrVal a.chunks_dir),
   ("chunk_paths", .list (a.chunk_paths.map PyVal.str)),
   ("chunk_seconds", optIntVal a.chunk_seconds),
   ("transcript_path", optStrVal a.transcript_path),
   ("transcript_sha256", optStrVal a.transcript_sha256),
   ("transcript_text", optStrVal a.transcript_text),
   ("transcript_provider", optStrVal a.transcript_provider),
   ("transcript_model", optStrVal a.transcript_model),
   ("transcript_language", optStrVal a.transcript_language),
   ("transcript_chunk_count", optIntVal a.transcript_chunk_count),
   ("transcript_duration_s", optFloatVal a.transcript_duration_s),
   ("transcript_segments_path", optStrVal a.transcript_segments_path),
   ("transcript_segments_count", optIntVal a.transcript_segments_count),
   ("minutes_md_path", optStrVal a.minutes_md_path),
   ("minutes_sha256", optStrVal a.minutes_sha256),
   ("minutes_docx_path", optStrVal a.minutes_docx_path),
   ("minutes_docx_sha256", optStrVal a.minutes_docx_sha256),
   ("minutes_markdown", optStrVal a.minutes_markdown),
   ("minutes_model", optStrVal a.minutes_model),
   ("minutes_prompt_version", optStrVal a.minutes_prompt_version),
   ("minutes_prompt_path", optStrVal a.minutes_prompt_path),
   ("minutes_prompt_hash", optStrVal a.minutes_prompt_hash)]

/-- `getattr(artifacts, name)` guarded by `hasattr`: `some` of the field's
dynamic value for a known field name, `none` for an unknown one. -/
def getRef (a : ArtifactRefs) (name : String) : Option PyVal :=
  ((fieldTable a).find? (fun kv => kv.1 == name)).map Prod.snd

/-- `Manifest` from `manifest.py`.  `steps` is the insertion-ordered dict of
step records keyed by step name. -/
structure Manifest where
  version : String := "1"
  run_id : Option String := Option.none
  created_at_s : Option ℚ := Option.none
  updated_at_s : Option ℚ := Option.none
  input_sha256 : Option String := Option.none
  artifacts : ArtifactRefs := {}
  steps : List (String × StepRecord) := []
  warnings : List String := []
  errors : List String := []

/-- `manifest.steps.get(step_name)`. -/
def lookupStep (steps : List (String × StepRecord)) (name : String) : Option StepRecord :=
  (steps.find? (fun p => p.1 == name)).map Prod.snd

/-- The value the hash check reads for a key: `input_sha256` reads the
manifest's top-level hash (falling back to the artifact field through
Python `or`), any other key reads the artifact field, and an unknown key is
a `ContractError` (modelled as `Except.error` carrying the message). -/
def hashActual (m : Manifest) (step_name key : String) : Except String PyVal :=
  if key == "input_sha256" then
    .ok (optStrVal (pyOrStr m.input_sha256 m.artifacts.input_sha256))
  else
    match getRef m.artifacts key with
    | some v => .ok v
    | Option.none =>
      .error ("Unknown hash field \x27" ++ key ++ "\x27 required by " ++ step_name)

/-- The `expected_inputs_hashes` loop of `should_skip_step`: stops with
`false` at the first mismatch, raises at the first unknown key. -/
def checkHashes (m : Manifest) (step_name : String) :
    List (String × String) → Except String Bool
  | [] => .ok true
  | (key, expected) :: rest =>
    match hashActual m step_name key with
    | .error e => .error e
    | .ok actual =>
      if ¬ pyEqStr actual expected then .ok false
      else checkHashes m step_name rest

/-- The `require_artifact_paths` loop of `should_skip_step`: raises at the
first unknown name, stops with `false` at the first empty value. -/
def checkRequired (m : Manifest) (step_name : String) :
    List String → Except String Bool
  | [] => .ok true
  | attr :: rest =>
    match getRef m.artifacts attr with
    | Option.none =>
      .error ("Unknown artifact ref \x27" ++ attr ++ "\x27 required by " ++ step_name)
    | some v =>
      if isEmptyVal v then .ok false
      else checkRequired m step_name rest

/-- `should_skip_step` from `manifest.py`: the record must exist with status
`"success"`, every expected hash must match, and every required artifact ref
must be present and non-empty; an unknown name raises a `ContractError`.
The function is pure (it only reads the manifest). -/
def should_skip_step (m : Manifest) (step_name : String)
    (require_artifact_paths : List String)
    (expected_inputs_hashes : List (String × String)) : Except String Bool :=
  match lookupStep m.steps step_name with
  | Option.none => .ok false
  | some rec =>
    if rec.status ≠ "success" then .ok false
    else
      match checkHashes m step_name expected_inputs_hashes with
      | .error e => .error e
      | .ok false => .ok false
      | .ok true => checkRequired m step_name require_artifact_paths

/-- The per-step dict produced by `asdict` / consumed by
`Manifest.from_dict`: the same fields as `StepRecord`, with `name` optional
because `from_dict` tolerates step dicts missing the `"name"` key
(defaulting it to the step's key in the `steps` mapping). -/
structure StepDict where
  name : Option String := Option.none
  status : String := "pending"
  started_at_s : Option ℚ := Option.none
  ended_at_s : Option ℚ := Option.none
  duration_ms : Option Int := Option.none
  attempts : Int := 0
  meta : List (String × PyVal) := []
  warnings : List String := []
  error : Option PyVal := Option.none
  error_type : Option String := Option.none

/-- The manifest dict shape produced by `Manifest.to_dict` / consumed by
`from_dict` (the artifact sub-dict of `asdict` is in field-for-field
bijection with `ArtifactRefs`, so it is carried as an `ArtifactRefs`). -/
structure ManifestDict where
  version : String := "1"
  run_id : Option String := Option.none
  created_at_s : Option ℚ := Option.none
  updated_at_s : Option ℚ := Option.none
  input_sha256 : Option String := Option.none
  artifacts : ArtifactRefs := {}
  steps : List (String × StepDict) := []
  warnings : List String := []
  errors : List String := []

/-- `asdict` on a `StepRecord` (every field serialized, `name` present). -/
def stepToDict (r : StepRecord) : StepDict :=
  { name := some r.name, status := r.status, started_at_s := r.started_at_s,
    ended_at_s := r.ended_at_s, duration_ms := r.duration_ms,
    attempts := r.attempts, meta := r.meta, warnings := r.warnings,
    error := r.error, error_type := r.error_type }

/-- The per-step branch of `Manifest.from_dict`: defaults a missing `"name"`
to the step's key, rebuilds the record, and recomputes a missing duration
from the stored timestamps. -/
def stepFromDict (stepName : String) (d : StepDict) : StepRecord :=
  let step : StepRecord :=
    { name := match d.name with | some n => n | Option.none => stepName,
      status := d.status, started_at_s := d.started_at_s,
      ended_at_s := d.ended_at_s, duration_ms := d.duration_ms,
      attempts := d.attempts, meta := d.meta, warnings := d.warnings,
      error := d.error, error_type := d.error_type }
  { step with
    duration_ms :=
      match step.duration_ms with
      | Option.none => step.compute_duration_ms
      | some v => some v }

/-- `Manifest.to_dict` (`asdict` on the dataclass). -/
def Manifest.to_dict (m : Manifest) : ManifestDict :=
  { version := m.version, run_id := m.run_id, created_at_s := m.created_at_s,
    updated_at_s := m.updated_at_s, input_sha256 := m.input_sha256,
    artifacts := m.artifacts, steps := m.steps.map (fun p => (p.1, stepToDict p.2)),
    warnings := m.warnings, errors := m.errors }

/-- `Manifest.from_dict` on a well-shaped dict (the `TypeError` →
`ContractError` path concerns dicts that do not map onto the dataclass
fields and is unreachable from the typed dict model). -/
def Manifest.from_dict (d : ManifestDict) : Manifest :=
  { version := d.version, run_id := d.run_id, created_at_s := d.created_at_s,
    updated_at_s := d.updated_at_s, input_sha256 := d.input_sha256,
    artifacts := d.artifacts,
    steps := d.steps.map (fun p => (p.1, stepFromDict p.1 p.2)),
    warnings := d.warnings, errors := d.errors }

/-- `isinstance(exc, PipelineError)` per the class hierarchy of
`errors.py`: only `PipelineError` itself and its subclass `ContractError`;
the `ComponentError` tree is a separate branch under `Exception`. -/
def isPipelineError (k : ExcKind) : Bool :=
  match k with
  | .pipelineError => true
  | .contractError => true
  | _ => false

/-- `isinstance(exc, ComponentError)` per the class hierarchy of
`errors.py` (every component-level kind, including the provider tree). -/
def isComponentError (k : ExcKind) : Bool :=
  match k with
  | .componentError => true
  | .inputValidation => true
  | .ffmpegError => true
  | .chunkingError => true
  | .transcriptionError => true
  | .minutesGenerationError => true
  | .externalToolError => true
  | .providerError => true
  | .providerResponseError => true
  | .providerRetryExhaustedError => true
  | _ => false

/-- The propagation tail of `fail_step` in `prediction_pipeline.py`: a
`PipelineError` is re-raised as-is; anything else is wrapped in a new
`PipelineError` naming the failing step, with the original as `__cause__`
(`raise ... from exc`). -/
def failStepPropagation (stepName : String) (exc : PyExc) : PyExc :=
  if isPipelineError exc.kind then exc
  else
    PyExc.mk .pipelineError
      ("pipeline failed at step \x27" ++ stepName ++ "\x27: " ++ exc.msg)
      (some exc)

/-- `TranscriptSegment` from `contracts/artifacts.py`. -/
structure TranscriptSegment where
  index : Int
  text : String
  start_s : Option ℚ := Option.none
  end_s : Option ℚ := Option.none
  chunk_index : Option Int := Option.none

/-- `_NormalizedChunkTranscript` from `openai_transcription.py`. -/
structure NormalizedChunkTranscript where
  text : String
  language : Option String
  duration_s : Option ℚ
  segments : List TranscriptSegment

/-- `ChunksArtifact` from `contracts/artifacts.py` (paths as strings). -/
structure ChunksArtifact where
  dir : String
  chunk_paths : List String
  chunk_seconds : Int
  count : Int

/-- The body of the `enumerate(raw_segments)` loop in `_normalize_segments`:
coerce text and timestamps (an `OverflowError` from the timestamp coercion
propagates), drop a segment with empty text and no timestamps, keep the
chunk-local `enumerate` index. -/
def normalizeSegmentsLoop : List PyVal → Nat → Except PyExc (List TranscriptSegment)
  | [], _ => .ok []
  | raw :: rest, idx =>
    let text := coerce_text (pyField raw "text")
    match float_or_none (pyField raw "start") with
    | .error e => .error e
    | .ok start_s =>
      match float_or_none (pyField raw "end") with
      | .error e => .error e
      | .ok end_s =>
        match normalizeSegmentsLoop rest (idx + 1) with
        | .error e => .error e
        | .ok tail =>
          if text = "" ∧ start_s = Option.none ∧ end_s = Option.none then .ok tail
          else
            .ok ({ index := (idx : Int), text := text, start_s := start_s,
                   end_s := end_s, chunk_index := Option.none } :: tail)

/-- `_normalize_segments`: `None` and `""` mean no segments; a non-list
value is a `ProviderResponseError`; a list is normalized element-wise. -/
def normalize_segments (raw : PyVal) : Except PyExc (List TranscriptSegment) :=
  match raw with
  | .none => .ok []
  | .str "" => .ok []
  | .list xs => normalizeSegmentsLoop xs 0
  | _ =>
    .error (PyExc.mk .providerResponseError
      "OpenAI transcription \x27segments\x27 must be a list when provided" Option.none)

/-- `_transcribe_chunk` given the provider's response (or raised error) for
one call: coerce the text, normalize the segments, synthesize text from
segment texts when the response has none, and fail with a
`ProviderResponseError` if the chunk still has no text.  The network call
itself (`client.audio.transcriptions.create`) is the external collaborator,
passed in as `fetch`. -/
def transcribe_chunk (fetch : Except PyExc PyVal) :
    Except PyExc NormalizedChunkTranscript :=
  match fetch with
  | .error e => .error e
  | .ok response =>
    let text0 := coerce_text (pyField response "text")
    match normalize_segments (pyField response "segments") with
    | .error e => .error e
    | .ok segments =>
      let text :=
        if text0 = "" ∧ ¬ segments.isEmpty then
          pyStrip (String.intercalate " "
            ((segments.filter (fun seg => seg.text ≠ "")).map (fun seg => seg.text)))
        else text0
      if text = "" then
        .error (PyExc.mk .providerResponseError
          "OpenAI transcription response missing text" Option.none)
      else
        match float_or_none (pyField response "duration") with
        | .error e => .error e
        | .ok duration_s =>
          .ok { text := text,
                language :=
                  (let l := coerce_text (pyField response "language")
                   if l = "" then Option.none else some l),
                duration_s := duration_s,
                segments := segments }

/-- The retry-exhausted message of `_transcribe_chunk_with_retry`. -/
def exhaustedMsg (chunk_path : String) (attempts : Nat) : String :=
  "OpenAI transcription failed for chunk " ++ chunk_path ++ " after "
    ++ toString attempts ++ " attempts"

/-- The `for attempt in range(1, attempts + 1)` loop of
`_transcribe_chunk_with_retry`: `f a` is the outcome of the `a`-th call to
`_transcribe_chunk`; `remaining` counts the attempts left after the current
one.  When the last attempt fails, a `ProviderRetryExhaustedError` carrying
the chunk path in its message is raised `from` the last error. -/
def retryGo (f : Nat → Except PyExc NormalizedChunkTranscript)
    (chunk_path : String) (attempts : Nat) :
    Nat → Nat → Except PyExc NormalizedChunkTranscript
  | attempt, remaining =>
    match f attempt, remaining with
    | .ok v, _ => .ok v
    | .error e, 0 =>
      .error (PyExc.mk .providerRetryExhaustedError
        (exhaustedMsg chunk_path attempts) (some e))
    | .error _, r + 1 => retryGo f chunk_path attempts (attempt + 1) r

/-- `_transcribe_chunk_with_retry`: `max_retries + 1` attempts starting at
attempt 1. -/
def transcribe_chunk_with_retry (max_retries : Nat) (chunk_path : String)
    (f : Nat → Except PyExc NormalizedChunkTranscript) :
    Except PyExc NormalizedChunkTranscript :=
  retryGo f chunk_path (max_retries + 1) 1 max_retries

/-- The mutable stitching state of the `transcribe` loop. -/
structure StitchState where
  stitched_text_parts : List String
  stitched_segments : List TranscriptSegment
  selected_language : Option String
  sum_chunk_durations : ℚ
  has_any_duration : Bool
  global_segment_index : Int

/-- The body of the `for chunk_index, chunk_path in enumerate(...)` loop in
`transcribe`, for one normalized chunk: pick the first truthy language, keep
non-empty text, accumulate durations, then either shift this chunk's
segments by `chunk_index * chunk_seconds` (assigning consecutive global
indices) or synthesize one whole-chunk segment from the text. -/
def stitchChunk (chunk_seconds : Int) (st : StitchState) (chunk_index : Nat)
    (n : NormalizedChunkTranscript) : StitchState :=
  let selected_language :=
    if ¬ optStrTruthy st.selected_language ∧ optStrTruthy n.language then n.language
    else st.selected_language
  let stitched_text_parts :=
    if n.text ≠ "" then st.stitched_text_parts ++ [n.text] else st.stitched_text_parts
  let (sum_chunk_durations, has_any_duration) :=
    match n.duration_s with
    | some d => (st.sum_chunk_durations + d, true)
    | Option.none => (st.sum_chunk_durations, st.has_any_duration)
  let offset_s : ℚ := ((chunk_index : Int) * chunk_seconds : Int)
  let (stitched_segments, global_segment_index) :=
    if ¬ n.segments.isEmpty then
      n.segments.foldl
        (fun (acc : List TranscriptSegment × Int) seg =>
          (acc.1 ++
            [{ index := acc.2, text := seg.text,
               start_s := seg.start_s.map (fun s => s + offset_s),
               end_s := seg.end_s.map (fun e => e + offset_s),
               chunk_index := some (chunk_index : Int) }],
           acc.2 + 1))
        (st.stitched_segments, st.global_segment_index)
    else if n.text ≠ "" then
      (st.stitched_segments ++
        [{ index := st.global_segment_index, text := n.text,
           start_s := Option.none, end_s := Option.none,
           chunk_index := some (chunk_index : Int) }],
       st.global_segment_index + 1)
    else (st.stitched_segments, st.global_segment_index)
  { stitched_text_parts := stitched_text_parts,
    stitched_segments := stitched_segments,
    selected_language := selected_language,
    sum_chunk_durations := sum_chunk_durations,
    has_any_duration := has_any_duration,
    global_segment_index := global_segment_index }

/-- The chunk loop of `transcribe`: each chunk goes through the retry
wrapper (whose per-attempt behaviour is `transcribe_chunk` of the client's
response for that path and attempt); the first raised error aborts. -/
def transcribeLoop (client : String → Nat → Except PyExc PyVal)
    (max_retries : Nat) (chunk_seconds : Int) :
    Nat → List String → StitchState → Except PyExc StitchState
  | _, [], st => .ok st
  | chunk_index, chunk_path :: rest, st =>
    match transcribe_chunk_with_retry max_retries chunk_path
        (fun attempt => transcribe_chunk (client chunk_path attempt)) with
    | .error e => .error e
    | .ok n =>
      transcribeLoop client max_retries chunk_seconds (chunk_index + 1) rest
        (stitchChunk chunk_seconds st chunk_index n)

/-- Minimum of a list of rationals (`min(...)` over a non-empty generator),
`none` on the empty list. -/
def listMin : List ℚ → Option ℚ
  | [] => Option.none
  | x :: xs => some (xs.foldl min x)

/-- Maximum of a list of rationals, `none` on the empty list. -/
def listMax : List ℚ → Option ℚ
  | [] => Option.none
  | x :: xs => some (xs.foldl max x)

/-- The diagnostics bundle (`timings`) of `transcribe`. -/
structure Timings where
  segments_count : Nat
  timestamped_segments_count : Nat
  timeline_start_s : Option ℚ
  timeline_end_s : Option ℚ

/-- `TranscriptArtifact` from `contracts/artifacts.py`, with the `meta`
dict's single `chunk_seconds` entry inlined. -/
structure TranscriptArtifact where
  text : String
  provider : String
  model : String
  chunk_count : Int
  language : Option String := Option.none
  segments : Option (List TranscriptSegment) := Option.none
  duration_s : Option ℚ := Option.none
  timings : Timings
  meta_chunk_seconds : Int

/-- The initial stitching state of `transcribe` for a pinned language. -/
def initStitchState (language : Option String) : StitchState :=
  { stitched_text_parts := [], stitched_segments := [],
    selected_language := language, sum_chunk_durations := 0,
    has_any_duration := false, global_segment_index := 0 }

/-- The tail of `OpenAITranscriptionAdapter.transcribe` after the chunk
loop: require non-empty stitched text, compute the timeline bounds, the
duration (timeline span floored at 0, else summed chunk durations, else
unknown) and the diagnostics bundle, and assemble the artifact. -/
def finishTranscribe (chunks : ChunksArtifact) (model : String)
    (st : StitchState) : Except PyExc TranscriptArtifact :=
  let full_text :=
    pyStrip (String.intercalate "\n"
      (st.stitched_text_parts.filter (fun part => part ≠ "")))
  if full_text = "" then
    .error (PyExc.mk .providerResponseError
      "OpenAI adapter produced an empty transcript" Option.none)
  else
    let timestamped_segments :=
      st.stitched_segments.filter
        (fun seg => seg.start_s.isSome ∨ seg.end_s.isSome)
    let timeline_start_s :=
      listMin (timestamped_segments.filterMap (fun seg => seg.start_s))
    let timeline_end_s :=
      listMax (timestamped_segments.filterMap (fun seg => seg.end_s))
    let duration_s : Option ℚ :=
      match timeline_start_s, timeline_end_s with
      | some a, some b => some (max 0 (b - a))
      | _, _ =>
        if st.has_any_duration then some st.sum_chunk_durations else Option.none
    .ok { text := full_text, provider := "openai", model := model,
          chunk_count := chunks.count,
          language := st.selected_language,
          segments :=
            if st.stitched_segments.isEmpty then Option.none
            else some st.stitched_segments,
          duration_s := duration_s,
          timings :=
            { segments_count := st.stitched_segments.length,
              timestamped_segments_count := timestamped_segments.length,
              timeline_start_s := timeline_start_s,
              timeline_end_s := timeline_end_s },
          meta_chunk_seconds := chunks.chunk_seconds }

/-- `OpenAITranscriptionAdapter.transcribe`: validate the chunk count,
run the per-chunk retry/normalize/stitch loop, then `finishTranscribe`.
The adapter configuration (`model`, pinned `language`,
`max_retries_per_chunk`) is passed explicitly; `client` gives the provider
response for a chunk path and attempt number. -/
def transcribe (chunks : ChunksArtifact)
    (client : String → Nat → Except PyExc PyVal)
    (model : String) (language : Option String) (max_retries : Nat) :
    Except PyExc TranscriptArtifact :=
  if chunks.count ≠ (chunks.chunk_paths.length : Int) then
    .error (PyExc.mk .providerResponseError
      "ChunksArtifact count does not match chunk_paths length" Option.none)
  else
    match transcribeLoop client max_retries chunks.chunk_seconds 0 chunks.chunk_paths
        (initStitchState language) with
    | .error e => .error e
    | .ok st => finishTranscribe chunks model st

/-- The value `should_skip_step` compares a hash key against, as a total
function on known keys: `input_sha256` reads the manifest's top-level hash
(with the Python `or` fallback to the artifact field), other keys read the
artifact field. -/
def hashActualB (m : Manifest) (key : String) : PyVal :=
  if key == "input_sha256" then optStrVal (pyOrStr m.input_sha256 m.artifacts.input_sha256)
  else (getRef m.artifacts key).getD .none

/-- Assign consecutive indices starting at `g` to a list of segments
(the action of the `global_segment_index` counter). -/
def reindexFrom (g : Int) : List TranscriptSegment → List TranscriptSegment
  | [] => []
  | s :: rest => { s with index := g } :: reindexFrom (g + 1) rest

/-- Spec §4.4, per chunk: shift every segment of chunk `i` by
`i × chunk_seconds` (segments without a chunk-local timestamp keep none) and
tag it with its chunk index; a chunk with no segments but with text yields
one synthesized whole-chunk segment (no timestamps); the `index` field is
left for the global reindexing. -/
def specChunkSegments (chunk_seconds : Int) (i : Nat)
    (n : NormalizedChunkTranscript) : List TranscriptSegment :=
  let offset_s : ℚ := ((i : Int) * chunk_seconds : Int)
  if ¬ n.segments.isEmpty then
    n.segments.map (fun seg =>
      { index := 0, text := seg.text,
        start_s := seg.start_s.map (fun s => s + offset_s),
        end_s := seg.end_s.map (fun e => e + offset_s),
        chunk_index := some (i : Int) })
  else if n.text ≠ "" then
    [{ index := 0, text := n.text, start_s := Option.none, end_s := Option.none,
       chunk_index := some (i : Int) }]
  else []

/-- Concatenation of the per-chunk segment lists of spec §4.4, starting at
chunk index `i`. -/
def specJoinSegments (chunk_seconds : Int) : Nat → List NormalizedChunkTranscript →
    List TranscriptSegment
  | _, [] => []
  | i, n :: rest =>
    specChunkSegments chunk_seconds i n ++ specJoinSegments chunk_seconds (i + 1) rest

/-- Spec §4.4 / §8: the stitched segment list — per-chunk shifted (or
synthesized) segments in chunk order, with globally increasing indices
assigned from 0. -/
def specStitchedSegments (chunk_seconds : Int)
    (ns : List NormalizedChunkTranscript) : List TranscriptSegment :=
  reindexFrom 0 (specJoinSegments chunk_seconds 0 ns)

/-- The pure stitching fold: `stitchChunk` over the normalized chunks in
order, starting at chunk index `ci`. -/
def stitchAll (chunk_seconds : Int) :
    StitchState → Nat → List NormalizedChunkTranscript → StitchState
  | st, _, [] => st
  | st, ci, n :: rest =>
    stitchAll chunk_seconds (stitchChunk chunk_seconds st ci n) (ci + 1) rest

/-! ## Theorems -/

/-- Every statically known field name resolves under `getRef` (`hasattr` is
true for it). -/
lemma getRef_isSome_of_mem (a : ArtifactRefs) (k : String)
    (hk : k ∈ artifactFields) : (getRef a k).isSome := by
  fin_cases hk <;> rfl

/-- For a known key the hash accessor cannot raise: it returns the value
`hashActualB` reads. -/
lemma hashActual_known (m : Manifest) (step k : String)
    (hk : k ∈ artifactFields) :
    hashActual m step k = .ok (hashActualB m k) := by
  unfold hashActual hashActualB
  split
  · rfl
  · have hs := getRef_isSome_of_mem m.artifacts k hk
    cases hgr : getRef m.artifacts k with
    | none => rw [hgr] at hs; simp at hs
    | some v => simp [hgr]

/-- With all keys known, the hash loop returns `ok` of the conjunction of
the individual comparisons. -/
lemma checkHashes_known (m : Manifest) (step : String) :
    ∀ hashes : List (String × String), (∀ kv ∈ hashes, kv.1 ∈ artifactFields) →
      checkHashes m step hashes
        = .ok (hashes.all (fun kv => pyEqStr (hashActualB m kv.1) kv.2)) := by
  intro hashes
  induction hashes with
  | nil => intro; rfl
  | cons kv rest ih =>
    intro hmem
    have hk : kv.1 ∈ artifactFields := hmem kv (List.mem_cons_self kv rest)
    obtain ⟨k, exp⟩ := kv
    simp only [checkHashes, hashActual_known m step k hk]
    by_cases hmatch : pyEqStr (hashActualB m k) exp = true
    · rw [if_neg (not_not_intro hmatch),
        ih (fun p hp => hmem p (List.mem_cons_of_mem _ hp))]
      simp [List.all_cons, hmatch]
    · rw [if_pos hmatch]
      rw [Bool.not_eq_true] at hmatch
      simp [List.all_cons, hmatch]

/-- With all names known, the required-refs loop returns `ok` of the
conjunction of the individual non-emptiness checks. -/
lemma checkRequired_known (m : Manifest) (step : String) :
    ∀ req : List String, (∀ a ∈ req, a ∈ artifactFields) →
      checkRequired m step req
        = .ok (req.all (fun a => ! isEmptyVal ((getRef m.artifacts a).getD .none))) := by
  intro req
  induction req with
  | nil => intro; rfl
  | cons attr rest ih =>
    intro hmem
    have hk : attr ∈ artifactFields := hmem attr (List.mem_cons_self attr rest)
    have hs := getRef_isSome_of_mem m.artifacts attr hk
    cases hgr : getRef m.artifacts attr with
    | none => rw [hgr] at hs; simp at hs
    | some v =>
      simp only [checkRequired, hgr]
      by_cases hempty : isEmptyVal v = true
      · rw [if_pos hempty]
        simp [List.all_cons, hgr, hempty]
      · rw [if_neg hempty,
          ih (fun a ha => hmem a (List.mem_cons_of_mem _ ha))]
        rw [Bool.not_eq_true] at hempty
        simp [List.all_cons, hgr, hempty]

/-- The field table's names are exactly `artifactFields`. -/
lemma fieldTable_names (a : ArtifactRefs) :
    (fieldTable a).map Prod.fst = artifactFields := rfl

/-- A name `getRef` resolves is statically known (`hasattr` of anything
else is false). -/
lemma getRef_eq_none_of_not_mem (a : ArtifactRefs) (k : String)
    (hk : k ∉ artifactFields) : getRef a k = Option.none := by
  unfold getRef
  have hfind : (fieldTable a).find? (fun kv => kv.1 == k) = Option.none := by
    rw [List.find?_eq_none]
    intro x hx
    simp only [beq_iff_eq]
    intro hxk
    apply hk
    rw [← hxk, ← fieldTable_names a]
    exact List.mem_map_of_mem Prod.fst hx
  rw [hfind]
  rfl

/-- The hash loop raises on the first unknown key when every earlier pair
matched. -/
lemma checkHashes_error_prefix (m : Manifest) (step : String) :
    ∀ (pre : List (String × String)) (k exp : String) (post : List (String × String)),
      (∀ kv ∈ pre, kv.1 ∈ artifactFields ∧ pyEqStr (hashActualB m kv.1) kv.2 = true) →
      k ≠ "input_sha256" → k ∉ artifactFields →
      ∃ e, checkHashes m step (pre ++ (k, exp) :: post) = .error e := by
  intro pre
  induction pre with
  | nil =>
    intro k exp post _ hne hmem
    refine ⟨"Unknown hash field \x27" ++ k ++ "\x27 required by " ++ step, ?_⟩
    simp only [List.nil_append, checkHashes, hashActual]
    rw [if_neg (by simpa using hne), getRef_eq_none_of_not_mem m.artifacts k hmem]
  | cons kv pre ih =>
    intro k exp post hpre hne hmem
    have hkv := hpre kv (List.mem_cons_self kv pre)
    obtain ⟨e, he⟩ := ih k exp post
      (fun p hp => hpre p (List.mem_cons_of_mem _ hp)) hne hmem
    refine ⟨e, ?_⟩
    obtain ⟨k1, v1⟩ := kv
    simp only [List.cons_append, checkHashes, hashActual_known m step k1 hkv.1]
    rw [if_neg (not_not_intro hkv.2)]
    exact he

/-- The required-refs loop raises on the first unknown name when every
earlier name was known and non-empty. -/
lemma checkRequired_error_prefix (m : Manifest) (step : String) :
    ∀ (pre : List String) (a : String) (post : List String),
      (∀ b ∈ pre, b ∈ artifactFields
        ∧ isEmptyVal ((getRef m.artifacts b).getD .none) = false) →
      a ∉ artifactFields →
      ∃ e, checkRequired m step (pre ++ a :: post) = .error e := by
  intro pre
  induction pre with
  | nil =>
    intro a post _ hmem
    refine ⟨"Unknown artifact ref \x27" ++ a ++ "\x27 required by " ++ step, ?_⟩
    simp only [List.nil_append, checkRequired,
      getRef_eq_none_of_not_mem m.artifacts a hmem]
  | cons b pre ih =>
    intro a post hpre hmem
    have hb := hpre b (List.mem_cons_self b pre)
    have hbs := getRef_isSome_of_mem m.artifacts b hb.1
    obtain ⟨e, he⟩ := ih a post (fun c hc => hpre c (List.mem_cons_of_mem _ hc)) hmem
    refine ⟨e, ?_⟩
    cases hgr : getRef m.artifacts b with
    | none => rw [hgr] at hbs; simp at hbs
    | some v =>
      have hv : isEmptyVal v = false := by
        have := hb.2
        rw [hgr] at this
        simpa using this
      simp only [List.cons_append, checkRequired, hgr]
      rw [if_neg (by simp [hv])]
      exact he

/-- C8, amended: an unknown artifact-ref name raises a contract-violation
error provided the check actually reaches it: the step record must exist
with status exactly `"success"`, and every item checked before the unknown
name must pass (each earlier hash pair known and matching; for an unknown
required name, additionally every hash pair matching and every earlier
required name known and non-empty).  When the status gate or an earlier
check already returns false, the unknown name is never inspected and the
call returns false without raising. -/
theorem should_skip_step_unknown_raises (m : Manifest) (step : String)
    (rec : StepRecord) (req : List String) (hashes : List (String × String))
    (hrec : lookupStep m.steps step = some rec) (hst : rec.status = "success")
    (hcase :
      (∃ pre k exp post, hashes = pre ++ (k, exp) :: post
        ∧ (∀ kv ∈ pre, kv.1 ∈ artifactFields ∧ pyEqStr (hashActualB m kv.1) kv.2 = true)
        ∧ k ≠ "input_sha256" ∧ k ∉ artifactFields)
      ∨ ((∀ kv ∈ hashes, kv.1 ∈ artifactFields ∧ pyEqStr (hashActualB m kv.1) kv.2 = true)
        ∧ ∃ pre a post, req = pre ++ a :: post
          ∧ (∀ b ∈ pre, b ∈ artifactFields
              ∧ isEmptyVal ((getRef m.artifacts b).getD .none) = false)
          ∧ a ∉ artifactFields)) :
    ∃ e, should_skip_step m step req hashes = .error e := by
  unfold should_skip_step
  rw [hrec]
  dsimp only
  rw [if_neg (not_not_intro hst)]
  rcases hcase with ⟨pre, k, exp, post, heq, hpre, hne, hmem⟩ |
    ⟨hall, pre, a, post, heq, hpre, hmem⟩
  · subst heq
    obtain ⟨e, he⟩ := checkHashes_error_prefix m step pre k exp post hpre hne hmem
    rw [he]
    exact ⟨e, rfl⟩
  · have hok : checkHashes m step hashes = .ok true := by
      rw [checkHashes_known m step hashes (fun kv hkv => (hall kv hkv).1)]
      congr 1
      rw [List.all_eq_true]
      intro kv hkv
      exact (hall kv hkv).2
    rw [hok]
    subst heq
    exact checkRequired_error_prefix m step pre a post hpre hmem

/-- C8, witness: with a successful step record, a required-artifact list
naming the unknown `"bogus"` makes the call raise. -/
theorem should_skip_step_unknown_raises_witness :
    ∃ e, should_skip_step
        { steps := [("transcribe", { name := "transcribe", status := "success" })] }
        "transcribe" ["bogus"] [] = .error e :=
  should_skip_step_unknown_raises _ "transcribe" _ _ _ rfl rfl
    (Or.inr ⟨by simp, [], "bogus", [], rfl, by simp, by decide⟩)

/-- C1: for known artifact-ref names, `should_skip_step` returns true iff
the step's record exists with status exactly `"success"`, every declared
(key, expected) hash pair matches the manifest's current value for that key
(`hashActualB`, with the `input_sha256` special case), and every required
artifact ref has a non-empty value; the `↔` gives both directions, so
making any single condition false makes the result false.  The embedding is
a pure function of the manifest, so the call cannot modify it. -/
theorem should_skip_step_iff (m : Manifest) (step : String)
    (req : List String) (hashes : List (String × String))
    (hreq : ∀ a ∈ req, a ∈ artifactFields)
    (hkeys : ∀ kv ∈ hashes, kv.1 ∈ artifactFields) :
    should_skip_step m step req hashes = .ok true ↔
      ((∃ rec, lookupStep m.steps step = some rec ∧ rec.status = "success")
       ∧ (∀ kv ∈ hashes, pyEqStr (hashActualB m kv.1) kv.2 = true)
       ∧ (∀ a ∈ req, isEmptyVal ((getRef m.artifacts a).getD .none) = false)) := by
  unfold should_skip_step
  cases hrec : lookupStep m.steps step with
  | none => simp [hrec]
  | some rec =>
    dsimp only
    by_cases hst : rec.status = "success"
    · rw [if_neg (not_not_intro hst)]
      rw [checkHashes_known m step hashes hkeys]
      by_cases hall : hashes.all (fun kv => pyEqStr (hashActualB m kv.1) kv.2) = true
      · rw [hall, checkRequired_known m step req hreq]
        by_cases hreqall :
            req.all (fun a => ! isEmptyVal ((getRef m.artifacts a).getD .none)) = true
        · simp only [hreqall]
          constructor
          · intro
            refine ⟨⟨rec, rfl, hst⟩, ?_, ?_⟩
            · intro kv hkv
              exact (List.all_eq_true.mp hall) kv hkv
            · intro a ha
              have := (List.all_eq_true.mp hreqall) a ha
              simpa using this
          · intro _; trivial
        · have : req.all (fun a => ! isEmptyVal ((getRef m.artifacts a).getD .none)) = false :=
            Bool.not_eq_true _ ▸ hreqall
          rw [this]
          constructor
          · intro h; cases h
          · rintro ⟨-, -, hre⟩
            exfalso
            apply hreqall
            rw [List.all_eq_true]
            intro a ha
            simp [hre a ha]
      · have hall' : hashes.all (fun kv => pyEqStr (hashActualB m kv.1) kv.2) = false :=
          Bool.not_eq_true _ ▸ hall
        rw [hall']
        constructor
        · intro h; cases h
        · rintro ⟨-, hha, -⟩
          exfalso
          apply hall
          rw [List.all_eq_true]
          intro kv hkv
          exact hha kv hkv
    · rw [if_pos hst]
      constructor
      · intro h; cases h
      · rintro ⟨⟨rec2, hrec2, hst2⟩, -, -⟩
        cases hrec2
        exact absurd hst2 hst

/-- C1, witness: a manifest with a successful `validate` record, matching
input hash and a non-empty `input_path` is skippable, and the theorem's
hypotheses hold for the names used. -/
theorem should_skip_step_iff_witness :
    should_skip_step
        { input_sha256 := some "h",
          artifacts := { input_path := some "/a", input_sha256 := some "h" },
          steps := [("validate", { name := "validate", status := "success" })] }
        "validate" ["input_path"] [("input_sha256", "h")] = .ok true ↔
      ((∃ rec, lookupStep
            [("validate", ({ name := "validate", status := "success" } : StepRecord))]
            "validate" = some rec ∧ rec.status = "success")
       ∧ (∀ kv ∈ [("input_sha256", "h")],
            pyEqStr
              (hashActualB
                { input_sha256 := some "h",
                  artifacts := { input_path := some "/a", input_sha256 := some "h" },
                  steps := [("validate", { name := "validate", status := "success" })] }
                kv.1) kv.2 = true)
       ∧ (∀ a ∈ ["input_path"],
            isEmptyVal
              ((getRef ({ input_path := some "/a", input_sha256 := some "h" } : ArtifactRefs)
                  a).getD .none) = false)) :=
  should_skip_step_iff _ "validate" _ _ (by decide) (by decide)

/-- A step record whose stored duration is consistent with its timestamps
round-trips exactly through `asdict` / `from_dict`. -/
lemma step_roundtrip (k : String) (r : StepRecord)
    (h : r.duration_ms = Option.none → r.compute_duration_ms = Option.none) :
    stepFromDict k (stepToDict r) = r := by
  obtain ⟨nm, st, sa, ea, dm, att, me, wa, er, et⟩ := r
  cases dm with
  | some v => rfl
  | none =>
    have h2 := h rfl
    simp only [StepRecord.compute_duration_ms] at h2
    simp [stepFromDict, stepToDict, StepRecord.compute_duration_ms, h2]

/-- C6: a manifest whose step durations are consistent with their
timestamps (every record the `StepRecord` API can produce is) round-trips
losslessly through `to_dict` / `from_dict` — in particular step statuses,
step durations and artifact refs are identical — and `from_dict`
recomputes a missing duration from the stored start/end timestamps. -/
theorem manifest_roundtrip (m : Manifest)
    (h : ∀ p ∈ m.steps, p.2.duration_ms = Option.none →
      p.2.compute_duration_ms = Option.none) :
    Manifest.from_dict (Manifest.to_dict m) = m
    ∧ (∀ (nm : String) (d : StepDict), d.duration_ms = Option.none →
        (stepFromDict nm d).duration_ms = (stepFromDict nm d).compute_duration_ms) := by
  constructor
  · cases m with
    | mk version run_id ca ua ish arts steps warns errs =>
      simp only [Manifest.to_dict, Manifest.from_dict, List.map_map, Manifest.mk.injEq,
        true_and, and_true]
      conv_rhs => rw [← List.map_id steps]
      apply List.map_congr_left
      intro p hp
      have := step_roundtrip p.1 p.2 (h p hp)
      simp only [Function.comp_apply, id_eq, this]
  · intro nm d hd
    obtain ⟨dn, dst, dsa, dea, ddm, datt, dme, dwa, der, det⟩ := d
    cases hd
    rfl

/-- C6, witness: a concrete one-step manifest with a finished record
round-trips to itself. -/
theorem manifest_roundtrip_witness :
    Manifest.from_dict
        (Manifest.to_dict
          { run_id := some "r", input_sha256 := some "h",
            artifacts := { input_path := some "/a" },
            steps := [("validate",
              { name := "validate", status := "success", started_at_s := some 1,
                ended_at_s := some 2, duration_ms := some 1000, attempts := 1 })] })
      = { run_id := some "r", input_sha256 := some "h",
          artifacts := { input_path := some "/a" },
          steps := [("validate",
            { name := "validate", status := "success", started_at_s := some 1,
              ended_at_s := some 2, duration_ms := some 1000, attempts := 1 })] }
    ∧ (∀ (nm : String) (d : StepDict), d.duration_ms = Option.none →
        (stepFromDict nm d).duration_ms = (stepFromDict nm d).compute_duration_ms) :=
  manifest_roundtrip _
    (by
      intro p hp hd
      simp only [List.mem_singleton] at hp
      subst hp
      cases hd)

/-- C5, counterexample: the claim says no operation moves a record whose
status is `success` back to `pending`, but `StepRecord.start` on a
successful record sets its status to `"pending"` (while incrementing the
attempt counter). -/
theorem step_start_resets_success_to_pending :
    (StepRecord.start { name := "transcribe", status := "success" } 5).status = "pending"
    ∧ ("pending" : String) ≠ "success" :=
  ⟨rfl, by decide⟩

/-- C5, amended: `start()` on any record stamps the start time, sets the
status to `pending` (even from `success` or `failed`) and increments the
attempt counter rather than resetting it; `finish()` sets exactly the
status it is given (the orchestrator only ever passes `success` or
`failed`); no other `StepRecord` operation changes the status. -/
theorem step_record_status_transitions (r : StepRecord) (at_s : ℚ)
    (status : String) (at2 : ℚ) (err : Option PyVal) (errt : Option String)
    (meta : List (String × PyVal)) :
    (r.start at_s).status = "pending"
    ∧ (r.start at_s).attempts = r.attempts + 1
    ∧ (r.start at_s).started_at_s = some at_s
    ∧ (r.finish status at2 err errt meta).status = status
    ∧ (r.finish status at2 err errt meta).attempts = r.attempts :=
  ⟨rfl, rfl, rfl, rfl, rfl⟩

/-- C4, counterexample: a component-level error (here a
`TranscriptionError`) is not propagated with its identity preserved;
`fail_step` wraps it in a new `PipelineError` naming the failing step, with
the original only as `__cause__`. -/
theorem component_error_is_wrapped :
    isComponentError
        (PyExc.mk .transcriptionError "provider misconfig" Option.none).kind = true
    ∧ failStepPropagation "transcribe"
        (PyExc.mk .transcriptionError "provider misconfig" Option.none)
      ≠ PyExc.mk .transcriptionError "provider misconfig" Option.none
    ∧ (failStepPropagation "transcribe"
        (PyExc.mk .transcriptionError "provider misconfig" Option.none)).kind
      = ExcKind.pipelineError
    ∧ (failStepPropagation "transcribe"
        (PyExc.mk .transcriptionError "provider misconfig" Option.none)).cause
      = some (PyExc.mk .transcriptionError "provider misconfig" Option.none) := by
  refine ⟨rfl, ?_, rfl, rfl⟩
  intro h
  have hk := congrArg PyExc.kind h
  simp [failStepPropagation, PyExc.kind, isPipelineError] at hk

/-- C4, amended: the orchestrator's failure path preserves the original
error's identity exactly when it is a pipeline-level error (`PipelineError`
or its subclass `ContractError`); every other error — including the
system's component-level error kinds — is wrapped in a new `PipelineError`
whose message names the failing step and whose `__cause__` is the original
error; nothing is swallowed. -/
theorem fail_step_propagation_policy (step : String) (e : PyExc) :
    (isPipelineError e.kind = true → failStepPropagation step e = e)
    ∧ (isPipelineError e.kind = false →
        failStepPropagation step e =
          PyExc.mk .pipelineError
            ("pipeline failed at step \x27" ++ step ++ "\x27: " ++ e.msg) (some e)) := by
  constructor <;> intro h <;> simp [failStepPropagation, h]

/-- C4, witness: a `ContractError` (a pipeline-level kind) passes through
`fail_step` unchanged. -/
theorem fail_step_propagation_policy_witness :
    failStepPropagation "transcribe" (PyExc.mk .contractError "bad manifest" Option.none)
      = PyExc.mk .contractError "bad manifest" Option.none :=
  (fail_step_propagation_policy "transcribe"
    (PyExc.mk .contractError "bad manifest" Option.none)).1 rfl

/-- One-step unfolding of the retry loop. -/
lemma retryGo_eq (f : Nat → Except PyExc NormalizedChunkTranscript)
    (p : String) (A att rem : Nat) :
    retryGo f p A att rem =
      match f att, rem with
      | .ok v, _ => .ok v
      | .error e, 0 =>
        .error (PyExc.mk .providerRetryExhaustedError (exhaustedMsg p A) (some e))
      | .error _, r + 1 => retryGo f p A (att + 1) r := by
  cases hf : f att with
  | ok v => cases rem <;> simp [retryGo, hf]
  | error e => cases rem <;> simp [retryGo, hf]

/-- The retry loop only consults attempts `att, …, att + rem`. -/
lemma retryGo_congr (p : String) (A : Nat)
    (f g : Nat → Except PyExc NormalizedChunkTranscript) :
    ∀ rem att, (∀ k, att ≤ k → k ≤ att + rem → f k = g k) →
      retryGo f p A att rem = retryGo g p A att rem := by
  intro rem
  induction rem with
  | zero =>
    intro att hfg
    rw [retryGo_eq, retryGo_eq, hfg att le_rfl (by omega)]
    cases g att <;> rfl
  | succ r ih =>
    intro att hfg
    rw [retryGo_eq, retryGo_eq, hfg att le_rfl (by omega)]
    cases g att with
    | ok v => rfl
    | error e => exact ih (att + 1) (fun k h1 h2 => hfg k (by omega) (by omega))

/-- If all attempts before `att + rem` fail and attempt `att + rem`
succeeds, the loop returns that success. -/
lemma retryGo_ok (p : String) (A : Nat)
    (f : Nat → Except PyExc NormalizedChunkTranscript)
    (v : NormalizedChunkTranscript) :
    ∀ rem att, (∀ k, att ≤ k → k < att + rem → ∃ e, f k = .error e) →
      f (att + rem) = .ok v → retryGo f p A att rem = .ok v := by
  intro rem
  induction rem with
  | zero =>
    intro att _ hend
    rw [Nat.add_zero] at hend
    rw [retryGo_eq, hend]
  | succ r ih =>
    intro att hfail hend
    obtain ⟨e, he⟩ := hfail att le_rfl (by omega)
    rw [retryGo_eq, he]
    have harith : att + (r + 1) = (att + 1) + r := by omega
    rw [harith] at hend
    exact ih (att + 1) (fun k h1 h2 => hfail k (by omega) (by omega)) hend

/-- If every attempt fails, the loop raises retry-exhausted with the last
error as cause. -/
lemma retryGo_exhaust (p : String) (A : Nat)
    (f : Nat → Except PyExc NormalizedChunkTranscript) (err : Nat → PyExc) :
    ∀ rem att, (∀ k, att ≤ k → k ≤ att + rem → f k = .error (err k)) →
      retryGo f p A att rem =
        .error (PyExc.mk .providerRetryExhaustedError (exhaustedMsg p A)
          (some (err (att + rem)))) := by
  intro rem
  induction rem with
  | zero =>
    intro att hfail
    rw [retryGo_eq, hfail att le_rfl (by omega), Nat.add_zero]
    rfl
  | succ r ih =>
    intro att hfail
    rw [retryGo_eq, hfail att le_rfl (by omega)]
    have harith : att + (r + 1) = (att + 1) + r := by omega
    rw [harith]
    exact ih (att + 1) (fun k h1 h2 => hfail k (by omega) (by omega))

/-- C3: with `max_retries = r` the per-chunk retry loop consults at most
attempts `1, …, r+1`; a provider failing the first `r` attempts and
succeeding on the `(r+1)`-th yields that attempt's normalized chunk; one
failing all `r+1` attempts raises a retry-exhausted error whose message
(`exhaustedMsg`) carries the chunk's file reference and whose cause is the
last underlying error. -/
theorem retry_policy (r : Nat) (path : String)
    (f g : Nat → Except PyExc NormalizedChunkTranscript)
    (v : NormalizedChunkTranscript) (err : Nat → PyExc) :
    ((∀ k, 1 ≤ k → k ≤ r + 1 → f k = g k) →
      transcribe_chunk_with_retry r path f = transcribe_chunk_with_retry r path g)
    ∧ ((∀ k, 1 ≤ k → k ≤ r → ∃ e, f k = .error e) → f (r + 1) = .ok v →
      transcribe_chunk_with_retry r path f = .ok v)
    ∧ ((∀ k, 1 ≤ k → k ≤ r + 1 → f k = .error (err k)) →
      transcribe_chunk_with_retry r path f =
        .error (PyExc.mk .providerRetryExhaustedError (exhaustedMsg path (r + 1))
          (some (err (r + 1))))) := by
  refine ⟨?_, ?_, ?_⟩
  · intro hfg
    exact retryGo_congr path (r + 1) f g r 1 (fun k h1 h2 => hfg k h1 (by omega))
  · intro hfail hend
    refine retryGo_ok path (r + 1) f v r 1 (fun k h1 h2 => hfail k h1 (by omega)) ?_
    rw [Nat.add_comm 1 r]
    exact hend
  · intro hfail
    have := retryGo_exhaust path (r + 1) f err r 1 (fun k h1 h2 => hfail k h1 (by omega))
    rw [Nat.add_comm 1 r] at this
    exact this

/-- C3, witness: with `max_retries = 1`, a provider failing attempt 1 and
succeeding on attempt 2 yields the successful chunk. -/
theorem retry_policy_witness :
    transcribe_chunk_with_retry 1 "chunk_0000.wav"
        (fun k => if k = 1 then .error (PyExc.mk .generic "boom" Option.none)
          else .ok { text := "hi", language := Option.none,
                     duration_s := Option.none, segments := [] })
      = .ok { text := "hi", language := Option.none,
              duration_s := Option.none, segments := [] } :=
  (retry_policy 1 "chunk_0000.wav"
      (fun k => if k = 1 then .error (PyExc.mk .generic "boom" Option.none)
        else .ok { text := "hi", language := Option.none,
                   duration_s := Option.none, segments := [] })
      (fun k => if k = 1 then .error (PyExc.mk .generic "boom" Option.none)
        else .ok { text := "hi", language := Option.none,
                   duration_s := Option.none, segments := [] })
      { text := "hi", language := Option.none, duration_s := Option.none, segments := [] }
      (fun _ => PyExc.mk .generic "boom" Option.none)).2.1
    (by
      intro k h1 h2
      have hk : k = 1 := by omega
      subst hk
      exact ⟨PyExc.mk .generic "boom" Option.none, rfl⟩)
    rfl

/-- Reindexing distributes over append, shifting the second start. -/
lemma reindexFrom_append (g : Int) (a b : List TranscriptSegment) :
    reindexFrom g (a ++ b) = reindexFrom g a ++ reindexFrom (g + a.length) b := by
  induction a generalizing g with
  | nil => simp [reindexFrom]
  | cons s rest ih =>
    show reindexFrom g (s :: (rest ++ b))
      = reindexFrom g (s :: rest) ++ reindexFrom (g + ((rest.length + 1 : Nat) : Int)) b
    rw [reindexFrom, reindexFrom, ih (g + 1), List.cons_append]
    rw [show g + 1 + (rest.length : Int) = g + ((rest.length + 1 : Nat) : Int) by
      push_cast; ring]

/-- The indices after reindexing from `g` are `g, g+1, …`. -/
lemma reindexFrom_map_index (g : Int) (l : List TranscriptSegment) :
    (reindexFrom g l).map (fun s => s.index)
      = (List.range l.length).map (fun (j : Nat) => g + (j : Int)) := by
  induction l generalizing g with
  | nil => simp [reindexFrom]
  | cons s rest ih =>
    rw [List.length_cons, List.range_succ_eq_map, List.map_cons, List.map_map]
    rw [reindexFrom, List.map_cons, ih (g + 1)]
    congr 1
    · simp
    · apply List.map_congr_left
      intro j hj
      simp only [Function.comp_apply]
      push_cast
      ring

/-- Reindexing touches only the `index` field: any index-insensitive
projection maps through unchanged. -/
lemma reindexFrom_map_proj {α : Type} (f : TranscriptSegment → α)
    (hf : ∀ s i, f { s with index := i } = f s) :
    ∀ (g : Int) (l : List TranscriptSegment), (reindexFrom g l).map f = l.map f := by
  intro g l
  induction l generalizing g with
  | nil => rfl
  | cons s rest ih => simp [reindexFrom, hf, ih]

/-- Every segment of the reindexed list shares its `chunk_index` with a
source segment. -/
lemma reindexFrom_mem_chunk_index :
    ∀ (g : Int) (l : List TranscriptSegment), ∀ s0 ∈ l,
      ∃ s ∈ reindexFrom g l, s.chunk_index = s0.chunk_index := by
  intro g l
  induction l generalizing g with
  | nil => intro s0 h; cases h
  | cons x rest ih =>
    intro s0 h
    rcases List.mem_cons.mp h with rfl | hmem
    · exact ⟨{ s0 with index := g }, List.mem_cons_self _ _, rfl⟩
    · obtain ⟨s, hs, hci⟩ := ih (g + 1) s0 hmem
      exact ⟨s, List.mem_cons_of_mem _ hs, hci⟩

/-- The inner segment loop of `stitchChunk` appends the shifted segments
with consecutive indices from the running counter. -/
lemma stitch_foldl (offset_s : ℚ) (ci : Nat) :
    ∀ (segs : List TranscriptSegment) (acc : List TranscriptSegment) (g : Int),
      segs.foldl
        (fun (acc : List TranscriptSegment × Int) seg =>
          (acc.1 ++
            [{ index := acc.2, text := seg.text,
               start_s := seg.start_s.map (fun s => s + offset_s),
               end_s := seg.end_s.map (fun e => e + offset_s),
               chunk_index := some (ci : Int) }],
           acc.2 + 1))
        (acc, g)
      = (acc ++ reindexFrom g
          (segs.map (fun seg =>
            ({ index := 0, text := seg.text,
               start_s := seg.start_s.map (fun s => s + offset_s),
               end_s := seg.end_s.map (fun e => e + offset_s),
               chunk_index := some (ci : Int) } : TranscriptSegment))),
         g + (segs.length : Int)) := by
  intro segs
  induction segs with
  | nil => intro acc g; simp [reindexFrom]
  | cons seg rest ih =>
    intro acc g
    rw [List.foldl_cons, ih, List.map_cons, reindexFrom, List.length_cons,
      List.append_assoc]
    simp only [List.singleton_append]
    rw [show g + 1 + (rest.length : Int) = g + ((rest.length + 1 : Nat) : Int) by
      push_cast; ring]

/-- One stitched chunk appends exactly its spec-side segment contribution
(reindexed from the running counter), advances the counter by its length,
and accumulates the reported duration. -/
lemma stitchChunk_spec (S : Int) (st : StitchState) (ci : Nat)
    (n : NormalizedChunkTranscript) :
    (stitchChunk S st ci n).stitched_segments
      = st.stitched_segments
        ++ reindexFrom st.global_segment_index (specChunkSegments S ci n)
    ∧ (stitchChunk S st ci n).global_segment_index
      = st.global_segment_index + ((specChunkSegments S ci n).length : Int)
    ∧ (stitchChunk S st ci n).sum_chunk_durations
      = st.sum_chunk_durations + n.duration_s.getD 0
    ∧ (stitchChunk S st ci n).has_any_duration
      = (st.has_any_duration || n.duration_s.isSome) := by
  obtain ⟨txt, lang, dur, segs⟩ := n
  unfold stitchChunk specChunkSegments
  dsimp only
  by_cases hseg : segs.isEmpty
  · rw [if_neg (not_not_intro hseg)]
    have hnil : segs = [] := List.isEmpty_iff.mp hseg
    subst hnil
    by_cases htxt : txt ≠ ""
    · rw [if_pos htxt, if_pos htxt]
      cases dur <;>
        simp [reindexFrom, List.length_cons, List.length_nil]
    · rw [if_neg htxt, if_neg htxt]
      cases dur <;> simp [reindexFrom]
  · rw [if_pos hseg, if_pos hseg]
    rw [stitch_foldl]
    cases dur <;> simp

/-- The stitching fold over a chunk list appends the spec-side join of the
per-chunk contributions, advances the counter by its total length, and
accumulates the reported durations. -/
lemma stitchAll_spec (S : Int) :
    ∀ (ns : List NormalizedChunkTranscript) (st : StitchState) (ci : Nat),
      (stitchAll S st ci ns).stitched_segments
        = st.stitched_segments
          ++ reindexFrom st.global_segment_index (specJoinSegments S ci ns)
      ∧ (stitchAll S st ci ns).global_segment_index
        = st.global_segment_index + ((specJoinSegments S ci ns).length : Int)
      ∧ (stitchAll S st ci ns).sum_chunk_durations
        = st.sum_chunk_durations + ((ns.filterMap (fun n => n.duration_s)).sum)
      ∧ (stitchAll S st ci ns).has_any_duration
        = (st.has_any_duration || !(ns.filterMap (fun n => n.duration_s)).isEmpty) := by
  intro ns
  induction ns with
  | nil =>
    intro st ci
    refine ⟨?_, ?_, ?_, ?_⟩ <;> simp [stitchAll, specJoinSegments, reindexFrom]
  | cons n rest ih =>
    intro st ci
    obtain ⟨hseg, hg, hsum, hdur⟩ := stitchChunk_spec S st ci n
    obtain ⟨ihseg, ihg, ihsum, ihdur⟩ := ih (stitchChunk S st ci n) (ci + 1)
    refine ⟨?_, ?_, ?_, ?_⟩
    · rw [show stitchAll S st ci (n :: rest)
          = stitchAll S (stitchChunk S st ci n) (ci + 1) rest from rfl]
      rw [ihseg, hseg, hg, specJoinSegments, reindexFrom_append, List.append_assoc]
    · rw [show stitchAll S st ci (n :: rest)
          = stitchAll S (stitchChunk S st ci n) (ci + 1) rest from rfl]
      rw [ihg, hg, specJoinSegments, List.length_append]
      push_cast
      ring
    · rw [show stitchAll S st ci (n :: rest)
          = stitchAll S (stitchChunk S st ci n) (ci + 1) rest from rfl]
      rw [ihsum, hsum]
      cases hd : n.duration_s <;> simp [List.filterMap_cons, hd] <;> try ring
    · rw [show stitchAll S st ci (n :: rest)
          = stitchAll S (stitchChunk S st ci n) (ci + 1) rest from rfl]
      rw [ihdur, hdur]
      cases hd : n.duration_s <;> simp [List.filterMap_cons, hd, Bool.or_assoc]

/-- One-step unfolding of the chunk loop. -/
lemma transcribeLoop_cons (client : String → Nat → Except PyExc PyVal)
    (r : Nat) (S : Int) (ci : Nat) (p : String) (rest : List String)
    (st : StitchState) :
    transcribeLoop client r S ci (p :: rest) st =
      match transcribe_chunk_with_retry r p
          (fun attempt => transcribe_chunk (client p attempt)) with
      | .error e => .error e
      | .ok n => transcribeLoop client r S (ci + 1) rest (stitchChunk S st ci n) := by
  cases h : transcribe_chunk_with_retry r p
      (fun attempt => transcribe_chunk (client p attempt)) with
  | ok n => simp [transcribeLoop, h]
  | error e => simp [transcribeLoop, h]

/-- When every chunk's retry wrapper succeeds with the given normalized
chunks, the loop returns the pure stitching fold over them. -/
lemma transcribeLoop_ok_of_forall (client : String → Nat → Except PyExc PyVal)
    (r : Nat) (S : Int) :
    ∀ (paths : List String) (ns : List NormalizedChunkTranscript),
      List.Forall₂
        (fun path n => transcribe_chunk_with_retry r path
          (fun attempt => transcribe_chunk (client path attempt)) = .ok n) paths ns →
      ∀ (ci : Nat) (st : StitchState),
        transcribeLoop client r S ci paths st = .ok (stitchAll S st ci ns) := by
  intro paths ns h
  induction h with
  | nil => intro ci st; rfl
  | cons hpn _ ih =>
    intro ci st
    rw [transcribeLoop_cons, hpn]
    exact ih (ci + 1) _

/-- A successful loop run arises from chunkwise-successful retries, and its
state is the pure stitching fold. -/
lemma transcribeLoop_ok_exists (client : String → Nat → Except PyExc PyVal)
    (r : Nat) (S : Int) :
    ∀ (paths : List String) (ci : Nat) (st st2 : StitchState),
      transcribeLoop client r S ci paths st = .ok st2 →
      ∃ ns, List.Forall₂
          (fun path n => transcribe_chunk_with_retry r path
            (fun attempt => transcribe_chunk (client path attempt)) = .ok n) paths ns
        ∧ st2 = stitchAll S st ci ns := by
  intro paths
  induction paths with
  | nil =>
    intro ci st st2 h
    refine ⟨[], List.Forall₂.nil, ?_⟩
    cases h
    rfl
  | cons p rest ih =>
    intro ci st st2 h
    rw [transcribeLoop_cons] at h
    cases hr : transcribe_chunk_with_retry r p
        (fun attempt => transcribe_chunk (client p attempt)) with
    | error e => rw [hr] at h; cases h
    | ok n =>
      rw [hr] at h
      obtain ⟨ns, hfa, hst⟩ := ih (ci + 1) (stitchChunk S st ci n) st2 h
      exact ⟨n :: ns, List.Forall₂.cons hr hfa, hst⟩

/-- A successful retry comes from some successful underlying attempt. -/
lemma retryGo_ok_exists (f : Nat → Except PyExc NormalizedChunkTranscript)
    (p : String) (A : Nat) :
    ∀ (rem att : Nat) (v : NormalizedChunkTranscript),
      retryGo f p A att rem = .ok v → ∃ k, f k = .ok v := by
  intro rem
  induction rem with
  | zero =>
    intro att v h
    rw [retryGo_eq] at h
    cases hf : f att with
    | ok w => rw [hf] at h; cases h; exact ⟨att, hf⟩
    | error e => rw [hf] at h; cases h
  | succ rr ih =>
    intro att v h
    rw [retryGo_eq] at h
    cases hf : f att with
    | ok w => rw [hf] at h; cases h; exact ⟨att, hf⟩
    | error e => rw [hf] at h; exact ih (att + 1) v h

/-- A normalized chunk produced by `_transcribe_chunk` has non-empty text
(the empty-text case raises instead). -/
lemma transcribe_chunk_text_ne (fetch : Except PyExc PyVal)
    (n : NormalizedChunkTranscript) :
    transcribe_chunk fetch = .ok n → n.text ≠ "" := by
  intro h
  unfold transcribe_chunk at h
  cases fetch with
  | error e => cases h
  | ok resp =>
    dsimp only at h
    cases hn : normalize_segments (pyField resp "segments") with
    | error e => rw [hn] at h; cases h
    | ok segs =>
      rw [hn] at h
      dsimp only at h
      split at h
      · split at h
        · cases h
        · rename_i hne
          cases hd : float_or_none (pyField resp "duration") with
          | error e => rw [hd] at h; cases h
          | ok d =>
            rw [hd] at h
            cases h
            exact hne
      · split at h
        · cases h
        · rename_i hne
          cases hd : float_or_none (pyField resp "duration") with
          | error e => rw [hd] at h; cases h
          | ok d =>
            rw [hd] at h
            cases h
            exact hne

/-- Every segment the spec contributes for chunk `i` is tagged with chunk
index `i`. -/
lemma specChunkSegments_chunk_index (S : Int) (i : Nat)
    (n : NormalizedChunkTranscript) :
    ∀ s ∈ specChunkSegments S i n, s.chunk_index = some (i : Int) := by
  intro s hs
  unfold specChunkSegments at hs
  split at hs
  · obtain ⟨s0, _, rfl⟩ := List.mem_map.mp hs
    rfl
  · split at hs
    · rcases List.mem_singleton.mp hs with rfl
      rfl
    · cases hs

/-- A chunk with non-empty text always contributes at least one segment. -/
lemma specChunkSegments_ne_nil (S : Int) (i : Nat)
    (n : NormalizedChunkTranscript) (hn : n.text ≠ "") :
    specChunkSegments S i n ≠ [] := by
  unfold specChunkSegments
  split
  · rename_i hseg
    simp only [ne_eq, List.map_eq_nil_iff]
    intro hcon
    rw [hcon] at hseg
    simp at hseg
  · simp [hn]

/-- If every chunk has non-empty text, chunk `i` contributes a segment
tagged with its chunk index to the spec-side join. -/
lemma specJoinSegments_covers (S : Int) :
    ∀ (ns : List NormalizedChunkTranscript) (ci : Nat),
      (∀ n ∈ ns, n.text ≠ "") →
      ∀ i, i < ns.length →
        ∃ s ∈ specJoinSegments S ci ns, s.chunk_index = some ((ci + i : Nat) : Int) := by
  intro ns
  induction ns with
  | nil => intro ci _ i hi; cases hi
  | cons n rest ih =>
    intro ci hne i hi
    cases i with
    | zero =>
      have hhead := specChunkSegments_ne_nil S ci n (hne n (List.mem_cons_self n rest))
      obtain ⟨s, hs⟩ := List.exists_mem_of_ne_nil _ hhead
      refine ⟨s, ?_, ?_⟩
      · rw [specJoinSegments]
        exact List.mem_append_left _ hs
      · rw [Nat.add_zero]
        exact specChunkSegments_chunk_index S ci n s hs
    | succ j =>
      obtain ⟨s, hs, hci⟩ :=
        ih (ci + 1) (fun m hm => hne m (List.mem_cons_of_mem _ hm)) j
          (Nat.lt_of_succ_lt_succ hi)
      refine ⟨s, ?_, ?_⟩
      · rw [specJoinSegments]
        exact List.mem_append_right _ hs
      · rw [hci]
        congr 1
        omega

/-- The fields of a successfully assembled transcript artifact, in terms of
the final stitching state. -/
lemma finishTranscribe_ok (chunks : ChunksArtifact) (model : String)
    (st : StitchState) (t : TranscriptArtifact)
    (h : finishTranscribe chunks model st = .ok t) :
    t.segments = (if st.stitched_segments.isEmpty then Option.none
      else some st.stitched_segments)
    ∧ t.duration_s =
      (match
        listMin ((st.stitched_segments.filter
          (fun seg => seg.start_s.isSome ∨ seg.end_s.isSome)).filterMap
            (fun seg => seg.start_s)),
        listMax ((st.stitched_segments.filter
          (fun seg => seg.start_s.isSome ∨ seg.end_s.isSome)).filterMap
            (fun seg => seg.end_s)) with
      | some a, some b => some (max 0 (b - a))
      | _, _ =>
        if st.has_any_duration then some st.sum_chunk_durations else Option.none)
    ∧ t.chunk_count = chunks.count := by
  unfold finishTranscribe at h
  dsimp only at h
  split at h
  · cases h
  · cases h
    exact ⟨rfl, rfl, rfl⟩

/-- Reindexing preserves length. -/
lemma reindexFrom_length (g : Int) (l : List TranscriptSegment) :
    (reindexFrom g l).length = l.length := by
  induction l generalizing g with
  | nil => rfl
  | cons s rest ih => simp [reindexFrom, ih]

/-- A successful `transcribe` run passes the chunk-count check and factors
through a successful loop state. -/
lemma transcribe_ok_elim (chunks : ChunksArtifact)
    (client : String → Nat → Except PyExc PyVal) (model : String)
    (lang : Option String) (r : Nat) (t : TranscriptArtifact)
    (h : transcribe chunks client model lang r = .ok t) :
    chunks.count = (chunks.chunk_paths.length : Int)
    ∧ ∃ st, transcribeLoop client r chunks.chunk_seconds 0 chunks.chunk_paths
          (initStitchState lang) = .ok st
        ∧ finishTranscribe chunks model st = .ok t := by
  unfold transcribe at h
  split at h
  · cases h
  · rename_i hcount
    cases hloop : transcribeLoop client r chunks.chunk_seconds 0 chunks.chunk_paths
        (initStitchState lang) with
    | error e => rw [hloop] at h; cases h
    | ok st =>
      rw [hloop] at h
      exact ⟨not_not.mp hcount, st, rfl, h⟩

/-- The segment list a successful run reports (empty when `None`). -/
lemma transcript_segments_getD (st : StitchState) (t : TranscriptArtifact)
    (hsegs : t.segments = (if st.stitched_segments.isEmpty then Option.none
      else some st.stitched_segments)) :
    t.segments.getD [] = st.stitched_segments := by
  rw [hsegs]
  by_cases he : st.stitched_segments.isEmpty
  · rw [if_pos he]
    simp [List.isEmpty_iff.mp he]
  · rw [if_neg he]
    rfl

/-- C2: when every chunk's retry succeeds with normalized chunks `ns` and
the adapter returns a transcript, the stitched segment list is exactly the
spec-side stitching — every segment of chunk `i` shifted by
`i × chunk_seconds` on both endpoints (`none` stays `none`), tagged with its
chunk, synthesized whole-chunk segments for segment-less chunks — and the
indices are exactly `0, 1, 2, …` in chunk order. -/
theorem stitched_offsets_and_indices (chunks : ChunksArtifact)
    (client : String → Nat → Except PyExc PyVal) (model : String)
    (lang : Option String) (r : Nat) (ns : List NormalizedChunkTranscript)
    (t : TranscriptArtifact)
    (hN : 1 ≤ chunks.chunk_paths.length)
    (hok : List.Forall₂
      (fun path n => transcribe_chunk_with_retry r path
        (fun attempt => transcribe_chunk (client path attempt)) = .ok n)
      chunks.chunk_paths ns)
    (ht : transcribe chunks client model lang r = .ok t) :
    t.segments.getD [] = specStitchedSegments chunks.chunk_seconds ns
    ∧ (t.segments.getD []).map (fun s => s.index)
      = (List.range (specStitchedSegments chunks.chunk_seconds ns).length).map
          (fun (j : Nat) => (j : Int)) := by
  obtain ⟨hcount, st, hloop, hfin⟩ := transcribe_ok_elim chunks client model lang r t ht
  rw [transcribeLoop_ok_of_forall client r chunks.chunk_seconds
    chunks.chunk_paths ns hok 0 (initStitchState lang)] at hloop
  have hst : st = stitchAll chunks.chunk_seconds (initStitchState lang) 0 ns := by
    cases hloop; rfl
  subst hst
  obtain ⟨hsegs, -, -⟩ := finishTranscribe_ok chunks model _ t hfin
  have hgetD := transcript_segments_getD _ t hsegs
  obtain ⟨hsa, -, -, -⟩ :=
    stitchAll_spec chunks.chunk_seconds ns (initStitchState lang) 0
  have hinit : specStitchedSegments chunks.chunk_seconds ns
      = (stitchAll chunks.chunk_seconds (initStitchState lang) 0 ns).stitched_segments := by
    rw [hsa]
    simp [initStitchState, specStitchedSegments]
  constructor
  · rw [hgetD, hinit]
  · rw [hgetD, hinit, hsa]
    simp only [initStitchState, List.nil_append]
    rw [reindexFrom_map_index, reindexFrom_length]
    apply List.map_congr_left
    intro j hj
    simp

/-- C2, witness: two 30-second chunks — one timestamped segment in chunk 0,
plain text in chunk 1 — stitch to the spec-side segments with indices 0, 1. -/
theorem stitched_offsets_and_indices_witness :
    (({ text := "hello\nworld", provider := "openai", model := "m", chunk_count := 2,
        language := Option.none,
        segments := some
          [{ index := 0, text := "hello", start_s := some 0, end_s := some 1,
             chunk_index := some 0 },
           { index := 1, text := "world", start_s := Option.none, end_s := Option.none,
             chunk_index := some 1 }],
        duration_s := some 1,
        timings := { segments_count := 2, timestamped_segments_count := 1,
                     timeline_start_s := some 0, timeline_end_s := some 1 },
        meta_chunk_seconds := 30 } : TranscriptArtifact).segments.getD []
      = specStitchedSegments 30
          [{ text := "hello", language := Option.none, duration_s := Option.none,
             segments := [{ index := 0, text := "hello", start_s := some 0,
                            end_s := some 1 }] },
           { text := "world", language := Option.none, duration_s := Option.none,
             segments := [] }])
    ∧ (({ text := "hello\nworld", provider := "openai", model := "m", chunk_count := 2,
          language := Option.none,
          segments := some
            [{ index := 0, text := "hello", start_s := some 0, end_s := some 1,
               chunk_index := some 0 },
             { index := 1, text := "world", start_s := Option.none, end_s := Option.none,
               chunk_index := some 1 }],
          duration_s := some 1,
          timings := { segments_count := 2, timestamped_segments_count := 1,
                       timeline_start_s := some 0, timeline_end_s := some 1 },
          meta_chunk_seconds := 30 } : TranscriptArtifact).segments.getD []).map
        (fun s => s.index)
      = (List.range (specStitchedSegments 30
          [{ text := "hello", language := Option.none, duration_s := Option.none,
             segments := [{ index := 0, text := "hello", start_s := some 0,
                            end_s := some 1 }] },
           { text := "world", language := Option.none, duration_s := Option.none,
             segments := [] }]).length).map (fun (j : Nat) => (j : Int)) :=
  stitched_offsets_and_indices
    { dir := "d", chunk_paths := ["c0", "c1"], chunk_seconds := 30, count := 2 }
    (fun p _ =>
      if p = "c0" then
        .ok (.dict [("text", .str "hello"),
          ("segments", .list [.dict [("text", .str "hello"), ("start", .int 0),
            ("end", .int 1)]])])
      else .ok (.dict [("text", .str "world")]))
    "m" Option.none 2
    [{ text := "hello", language := Option.none, duration_s := Option.none,
       segments := [{ index := 0, text := "hello", start_s := some 0, end_s := some 1 }] },
     { text := "world", language := Option.none, duration_s := Option.none,
       segments := [] }]
    _
    (by decide)
    (List.Forall₂.cons (by with_unfolding_all rfl)
      (List.Forall₂.cons (by with_unfolding_all rfl) List.Forall₂.nil))
    (by with_unfolding_all rfl)

/-- C7, counterexample: one chunk whose only segment has a start time but
no end time, with a reported chunk duration of 7.  A stitched segment
carries a timestamp, yet `max(end)` over the timestamped segments does not
exist (no segment has an end), and the code falls back to the summed chunk
durations — the claim's priority order does not describe this output. -/
theorem duration_priority_counterexample :
    transcribe { dir := "d", chunk_paths := ["c0"], chunk_seconds := 30, count := 1 }
        (fun _ _ => .ok (.dict [("text", .str "a"), ("duration", .float 7),
          ("segments", .list [.dict [("text", .str "a"), ("start", .float 1)]])]))
        "m" Option.none 0
      = .ok { text := "a", provider := "openai", model := "m", chunk_count := 1,
              language := Option.none,
              segments := some [{ index := 0, text := "a", start_s := some 1,
                                  end_s := Option.none, chunk_index := some 0 }],
              duration_s := some 7,
              timings := { segments_count := 1, timestamped_segments_count := 1,
                           timeline_start_s := some 1, timeline_end_s := Option.none },
              meta_chunk_seconds := 30 }
    ∧ (∃ seg ∈ [({ index := 0, text := "a", start_s := some 1,
                   end_s := Option.none, chunk_index := some 0 } : TranscriptSegment)],
        seg.start_s.isSome ∨ seg.end_s.isSome)
    ∧ listMax (([({ index := 0, text := "a", start_s := some 1,
                    end_s := Option.none, chunk_index := some 0 } : TranscriptSegment)].filter
          (fun seg => seg.start_s.isSome ∨ seg.end_s.isSome)).filterMap
            (fun seg => seg.end_s)) = Option.none
    ∧ (some (7 : ℚ) : Option ℚ) ≠ Option.none :=
  ⟨by with_unfolding_all rfl,
   ⟨_, List.mem_singleton.mpr rfl, Or.inl rfl⟩,
   rfl,
   by simp⟩

/-- C7, amended: the reported duration is `max(end) − min(start)` (floored
at 0) over the timestamped stitched segments whenever both a start and an
end exist among them; otherwise — including when segments carry only starts
or only ends — it is the sum of the chunks' reported durations when at
least one chunk reported one, and absent otherwise. -/
theorem duration_policy (chunks : ChunksArtifact)
    (client : String → Nat → Except PyExc PyVal) (model : String)
    (lang : Option String) (r : Nat) (ns : List NormalizedChunkTranscript)
    (t : TranscriptArtifact)
    (hok : List.Forall₂
      (fun path n => transcribe_chunk_with_retry r path
        (fun attempt => transcribe_chunk (client path attempt)) = .ok n)
      chunks.chunk_paths ns)
    (ht : transcribe chunks client model lang r = .ok t) :
    t.duration_s =
      (match
        listMin (((specStitchedSegments chunks.chunk_seconds ns).filter
          (fun seg => seg.start_s.isSome ∨ seg.end_s.isSome)).filterMap
            (fun seg => seg.start_s)),
        listMax (((specStitchedSegments chunks.chunk_seconds ns).filter
          (fun seg => seg.start_s.isSome ∨ seg.end_s.isSome)).filterMap
            (fun seg => seg.end_s)) with
      | some a, some b => some (max 0 (b - a))
      | _, _ =>
        if (ns.filterMap (fun n => n.duration_s)).isEmpty then Option.none
        else some ((ns.filterMap (fun n => n.duration_s)).sum)) := by
  obtain ⟨hcount, st, hloop, hfin⟩ := transcribe_ok_elim chunks client model lang r t ht
  rw [transcribeLoop_ok_of_forall client r chunks.chunk_seconds
    chunks.chunk_paths ns hok 0 (initStitchState lang)] at hloop
  have hst : st = stitchAll chunks.chunk_seconds (initStitchState lang) 0 ns := by
    cases hloop; rfl
  subst hst
  obtain ⟨-, hdur, -⟩ := finishTranscribe_ok chunks model _ t hfin
  obtain ⟨hsa, -, hsum, hflag⟩ :=
    stitchAll_spec chunks.chunk_seconds ns (initStitchState lang) 0
  have hinit : specStitchedSegments chunks.chunk_seconds ns
      = (stitchAll chunks.chunk_seconds (initStitchState lang) 0 ns).stitched_segments := by
    rw [hsa]
    simp [initStitchState, specStitchedSegments]
  have hsum' : (stitchAll chunks.chunk_seconds (initStitchState lang) 0 ns).sum_chunk_durations
      = (ns.filterMap (fun n => n.duration_s)).sum := by
    rw [hsum]
    simp [initStitchState]
  have hflag' : (stitchAll chunks.chunk_seconds (initStitchState lang) 0 ns).has_any_duration
      = !(ns.filterMap (fun n => n.duration_s)).isEmpty := by
    rw [hflag]
    simp [initStitchState]
  rw [hdur, ← hinit, hsum', hflag']
  cases hmin : listMin (((specStitchedSegments chunks.chunk_seconds ns).filter
      (fun seg => seg.start_s.isSome ∨ seg.end_s.isSome)).filterMap
        (fun seg => seg.start_s)) <;>
    cases hmax : listMax (((specStitchedSegments chunks.chunk_seconds ns).filter
      (fun seg => seg.start_s.isSome ∨ seg.end_s.isSome)).filterMap
        (fun seg => seg.end_s)) <;>
    cases hie : (ns.filterMap (fun n => n.duration_s)).isEmpty <;>
    simp [hie]

/-- C7, witness: two chunks without timestamps but with reported durations
3 and 4 give a stitched duration of 7 (the summed-durations branch). -/
theorem duration_policy_witness :
    ({ text := "a\nb", provider := "openai", model := "m", chunk_count := 2,
       language := Option.none,
       segments := some
         [{ index := 0, text := "a", start_s := Option.none, end_s := Option.none,
            chunk_index := some 0 },
          { index := 1, text := "b", start_s := Option.none, end_s := Option.none,
            chunk_index := some 1 }],
       duration_s := some 7,
       timings := { segments_count := 2, timestamped_segments_count := 0,
                    timeline_start_s := Option.none, timeline_end_s := Option.none },
       meta_chunk_seconds := 60 } : TranscriptArtifact).duration_s =
      (match
        listMin (((specStitchedSegments 60
          [{ text := "a", language := Option.none, duration_s := some 3, segments := [] },
           { text := "b", language := Option.none, duration_s := some 4,
             segments := [] }]).filter
          (fun seg => seg.start_s.isSome ∨ seg.end_s.isSome)).filterMap
            (fun seg => seg.start_s)),
        listMax (((specStitchedSegments 60
          [{ text := "a", language := Option.none, duration_s := some 3, segments := [] },
           { text := "b", language := Option.none, duration_s := some 4,
             segments := [] }]).filter
          (fun seg => seg.start_s.isSome ∨ seg.end_s.isSome)).filterMap
            (fun seg => seg.end_s)) with
      | some a, some b => some (max 0 (b - a))
      | _, _ =>
        if (([{ text := "a", language := Option.none, duration_s := some 3,
                segments := [] },
              { text := "b", language := Option.none, duration_s := some 4,
                segments := [] }] : List NormalizedChunkTranscript).filterMap
              (fun n => n.duration_s)).isEmpty then Option.none
        else some ((([{ text := "a", language := Option.none, duration_s := some 3,
                        segments := [] },
                      { text := "b", language := Option.none, duration_s := some 4,
                        segments := [] }] : List NormalizedChunkTranscript).filterMap
              (fun n => n.duration_s)).sum)) :=
  duration_policy
    { dir := "d", chunk_paths := ["c0", "c1"], chunk_seconds := 60, count := 2 }
    (fun p _ =>
      if p = "c0" then .ok (.dict [("text", .str "a"), ("duration", .float 3)])
      else .ok (.dict [("text", .str "b"), ("duration", .float 4)]))
    "m" Option.none 1
    [{ text := "a", language := Option.none, duration_s := some 3, segments := [] },
     { text := "b", language := Option.none, duration_s := some 4, segments := [] }]
    _
    (List.Forall₂.cons (by with_unfolding_all rfl)
      (List.Forall₂.cons (by with_unfolding_all rfl) List.Forall₂.nil))
    (by with_unfolding_all rfl)

/-- Every normalized chunk delivered by a chunkwise-successful retry pass
has non-empty text. -/
lemma forall2_retry_text_ne (client : String → Nat → Except PyExc PyVal) (r : Nat) :
    ∀ (paths : List String) (ns : List NormalizedChunkTranscript),
      List.Forall₂
        (fun path n => transcribe_chunk_with_retry r path
          (fun attempt => transcribe_chunk (client path attempt)) = .ok n) paths ns →
      ∀ n ∈ ns, n.text ≠ "" := by
  intro paths ns h
  induction h with
  | nil => intro n hn; cases hn
  | cons hpn _ ih =>
    intro n hn
    rcases List.mem_cons.mp hn with rfl | hm
    · obtain ⟨k, hk⟩ := retryGo_ok_exists _ _ (r + 1) r 1 n hpn
      exact transcribe_chunk_text_ne _ n hk
    · exact ih n hm

/-- C9: whenever the adapter's `transcribe` returns successfully, the
transcript's segments field is `some` of a non-empty list, the chunk set
was non-empty, and every chunk index is represented by at least one
stitched segment (each surviving chunk contributes its own segments or one
synthesized whole-chunk segment). -/
theorem transcribe_segments_cover (chunks : ChunksArtifact)
    (client : String → Nat → Except PyExc PyVal) (model : String)
    (lang : Option String) (r : Nat) (t : TranscriptArtifact)
    (ht : transcribe chunks client model lang r = .ok t) :
    ∃ l, t.segments = some l ∧ l ≠ []
      ∧ 1 ≤ chunks.chunk_paths.length
      ∧ ∀ i, i < chunks.chunk_paths.length →
          ∃ s ∈ l, s.chunk_index = some (i : Int) := by
  obtain ⟨hcount, st, hloop, hfin⟩ := transcribe_ok_elim chunks client model lang r t ht
  obtain ⟨ns, hfa, hst⟩ := transcribeLoop_ok_exists client r chunks.chunk_seconds
    chunks.chunk_paths 0 (initStitchState lang) st hloop
  subst hst
  have hlen := List.Forall₂.length_eq hfa
  have htext := forall2_retry_text_ne client r chunks.chunk_paths ns hfa
  have hNpos : 1 ≤ chunks.chunk_paths.length := by
    cases hp : chunks.chunk_paths with
    | cons _ _ => simp
    | nil =>
      rw [hp] at hfa
      cases hfa
      have hbad : finishTranscribe chunks model
          (stitchAll chunks.chunk_seconds (initStitchState lang) 0 [])
          = .error (PyExc.mk .providerResponseError
            "OpenAI adapter produced an empty transcript" Option.none) := rfl
      rw [hbad] at hfin
      cases hfin
  obtain ⟨hsegs, -, -⟩ := finishTranscribe_ok chunks model _ t hfin
  obtain ⟨hsa, -, -, -⟩ :=
    stitchAll_spec chunks.chunk_seconds ns (initStitchState lang) 0
  have hsa' : (stitchAll chunks.chunk_seconds (initStitchState lang) 0 ns).stitched_segments
      = reindexFrom 0 (specJoinSegments chunks.chunk_seconds 0 ns) := by
    rw [hsa]
    simp [initStitchState]
  have hcover : ∀ i, i < chunks.chunk_paths.length →
      ∃ s ∈ (stitchAll chunks.chunk_seconds (initStitchState lang) 0 ns).stitched_segments,
        s.chunk_index = some (i : Int) := by
    intro i hi
    have hi2 : i < ns.length := by omega
    obtain ⟨s0, hs0, hci⟩ :=
      specJoinSegments_covers chunks.chunk_seconds ns 0 htext i hi2
    obtain ⟨s, hs, hsc⟩ :=
      reindexFrom_mem_chunk_index 0 (specJoinSegments chunks.chunk_seconds 0 ns) s0 hs0
    refine ⟨s, ?_, ?_⟩
    · rw [hsa']
      exact hs
    · rw [hsc, hci]
      simp
  have hne : (stitchAll chunks.chunk_seconds (initStitchState lang) 0 ns).stitched_segments
      ≠ [] := by
    obtain ⟨s, hs, -⟩ := hcover 0 (by omega)
    exact List.ne_nil_of_mem hs
  refine ⟨(stitchAll chunks.chunk_seconds (initStitchState lang) 0 ns).stitched_segments,
    ?_, hne, hNpos, hcover⟩
  rw [hsegs, if_neg (by simpa [List.isEmpty_iff] using hne)]

/-- C9, witness: a two-chunk run returns `some` of a non-empty segment list
with one segment per chunk. -/
theorem transcribe_segments_cover_witness :
    ∃ l, ({ text := "a\nb", provider := "openai", model := "m", chunk_count := 2,
            language := Option.none,
            segments := some
              [{ index := 0, text := "a", start_s := Option.none, end_s := Option.none,
                 chunk_index := some 0 },
               { index := 1, text := "b", start_s := Option.none, end_s := Option.none,
                 chunk_index := some 1 }],
            duration_s := Option.none,
            timings := { segments_count := 2, timestamped_segments_count := 0,
                         timeline_start_s := Option.none, timeline_end_s := Option.none },
            meta_chunk_seconds := 10 } : TranscriptArtifact).segments = some l
      ∧ l ≠ []
      ∧ 1 ≤ (["c0", "c1"] : List String).length
      ∧ ∀ i, i < (["c0", "c1"] : List String).length →
          ∃ s ∈ l, s.chunk_index = some (i : Int) :=
  transcribe_segments_cover
    { dir := "d", chunk_paths := ["c0", "c1"], chunk_seconds := 10, count := 2 }
    (fun p _ =>
      if p = "c0" then .ok (.dict [("text", .str "a")])
      else .ok (.dict [("text", .str "b")]))
    "m" Option.none 0 _ (by with_unfolding_all rfl)

/-- C10, counterexample: `_float_or_none` is not total and can raise —
`float()` on an int beyond the double range raises `OverflowError`, which
the `except (TypeError, ValueError)` clause does not catch; at `10^400`
the coercion raises instead of returning the float value or `None`. -/
theorem float_or_none_overflow_counterexample :
    float_or_none (.int (10 ^ 400))
      = .error (PyExc.mk .overflowError "int too large to convert to float" Option.none)
    ∧ floatOverflows (10 ^ 400) = true :=
  ⟨by with_unfolding_all rfl, by with_unfolding_all rfl⟩

/-- C10, amended: the coercion catches only `TypeError` and `ValueError`:
`None`, booleans, lists and dicts map to `None`; floats and ints within the
double range map to their value; strings map through the `float()` parse
(the value on a numeric string, `None` on a non-numeric one, never an
overflow); but an int whose magnitude reaches the double range
(`floatOverflows`) raises an uncaught `OverflowError`. -/
theorem float_or_none_coercion_spec :
    (float_or_none PyVal.none = .ok Option.none)
    ∧ (∀ b, float_or_none (.bool b) = .ok Option.none)
    ∧ (∀ n : Int, floatOverflows n = false → float_or_none (.int n) = .ok (some (n : ℚ)))
    ∧ (∀ n : Int, floatOverflows n = true →
        float_or_none (.int n)
          = .error (PyExc.mk .overflowError "int too large to convert to float"
              Option.none))
    ∧ (∀ q : ℚ, float_or_none (.float q) = .ok (some q))
    ∧ (∀ s, float_or_none (.str s) = .ok (pyParseFloat s))
    ∧ (∀ xs, float_or_none (.list xs) = .ok Option.none)
    ∧ (∀ kvs, float_or_none (.dict kvs) = .ok Option.none) :=
  ⟨rfl, fun _ => rfl,
   fun n h => by simp [float_or_none, h],
   fun n h => by simp [float_or_none, h],
   fun _ => rfl, fun _ => rfl, fun _ => rfl, fun _ => rfl⟩

/-- C10, witness: `3` is within the double range and coerces to its value;
the numeric string `"2.5"` coerces to `5/2`. -/
theorem float_or_none_coercion_spec_witness :
    floatOverflows 3 = false
    ∧ float_or_none (.int 3) = .ok (some (3 : ℚ))
    ∧ float_or_none (.str "2.5") = .ok (some (5 / 2 : ℚ)) :=
  ⟨by with_unfolding_all rfl,
   float_or_none_coercion_spec.2.2.1 3 (by with_unfolding_all rfl),
   by with_unfolding_all rfl⟩

/-- C8, counterexample: with no record for the step (status not
`success`), `should_skip_step` returns `False` without raising even though
the required-artifact list names `"bogus"`, which is not a known
`ArtifactRefs` field — the claim's "regardless of the step record's
status" fails. -/
theorem unknown_ref_returns_false_when_not_success :
    should_skip_step {} "transcribe" ["bogus"] [] = .ok false
    ∧ "bogus" ∉ artifactFields
    ∧ lookupStep ({} : Manifest).steps "transcribe" = Option.none :=
  ⟨rfl, by decide, rfl⟩

end TrueNote
